import Mathlib

/-!
# EmberScript compile-and-execute core: a shallow embedding

A shallow embedding of the EmberScript bytecode compiler and stack VM
(`src/src/virtual_machine.c`, `src/src/compiler.c`, `src/src/runtime.c`,
`src/src/lexer.c`, `src/main.c`), together with theorems settling the
frozen claims about that code.

Modelling conventions:
* C `double` payloads are modelled as `ℚ` (exact arithmetic; the claims
  under study never depend on binary floating-point rounding).
* C strings (`char*`) are modelled as Lean `String`s; the byte sequence of
  a C string is its characters up to the first NUL, which the relevant
  invariants keep NUL-free.
* Machine bytes are `ℕ` values; the C casts `(uint8_t)x` and the bit
  operations `(x >> 8) & 0xFF` / `x & 0xFF` are written `% 256`,
  `(x / 256) % 256` and `% 256`.
* `fprintf(stderr, ...)` diagnostics are collected in an `errs` list,
  `printf` output in an `output` list; an `int` status is the value
  `vm_run` returns.
* Reads outside a buffer (past the end of `code`, or of `constants`) are
  undefined behaviour in C and are modelled by an explicit `fault` result.
-/

namespace EmberScript

/-- The dynamic value model (`RuntimeValue` in `runtime.h`): a tagged union
with tags NUMBER, STRING, BOOLEAN, NULL, ARRAY, OBJECT, FUNCTION (in that
enum order).  Object and function payloads are never inspected by the
compile-and-execute core under study, so they carry no data here. -/
inductive RuntimeValue where
  | number (x : ℚ)
  | string (s : String)
  | boolean (b : Bool)
  | null
  | array (elements : List RuntimeValue)
  | object
  | function

/-- The enum discriminant of a value's tag, as `RuntimeValueType` numbers it. -/
def runtimeTag : RuntimeValue → ℕ
  | .number _ => 0
  | .string _ => 1
  | .boolean _ => 2
  | .null => 3
  | .array _ => 4
  | .object => 5
  | .function => 6

/-- Truncation toward zero, the C `(int)` cast applied to a double. -/
def ratTrunc (q : ℚ) : ℤ := q.num.tdiv q.den

/-- `fmod(a, b)` on exact rationals: `a - trunc(a/b) * b`. -/
def fmodQ (a b : ℚ) : ℚ := a - (ratTrunc (a / b) : ℚ) * b

/-- Decimal digits of an integer, with a leading minus sign when negative. -/
def intToDec (n : ℤ) : String :=
  if n < 0 then "-" ++ toString n.natAbs else toString n.natAbs

/-- Decimal digits of `n`, left-padded with zeros to width `k`. -/
def padZeros (k : ℕ) (n : ℕ) : String :=
  let s := toString n
  String.mk (List.replicate (k - s.length) '0') ++ s

/-- `snprintf(result, 32, "%.2f", x)` from `runtime_value_to_string`
(`runtime.c:706`): fixed two decimal places, computed on the reduced
fraction `|x| = n/d` (m is 100·|x| rounded half-up; the claims only
evaluate this away from the half-way ties where binary doubles could
round differently). -/
def fmt_f2 (x : ℚ) : String :=
  let n := x.num.natAbs
  let d := x.den
  let m := (n * 200 + d) / (2 * d)
  (if x.num < 0 then "-" else "") ++ toString (m / 100) ++ "." ++ padZeros 2 (m % 100)

/-- Strip trailing `'0'` characters (used after the decimal point). -/
def trimZeros (s : String) : String :=
  String.mk (s.data.reverse.dropWhile (fun c => c == '0')).reverse

/-- `printf("%g", x)` from the VM's OP_PRINT (`virtual_machine.c:617`),
on the `ℚ` abstraction of the double payload: integers print as plain
decimal integers; non-integers are rendered with six significant digits
and trailing zeros trimmed (the `%g` behaviour away from the exponent
range, which the claims never reach — they only print integer values). -/
def fmt_g (x : ℚ) : String :=
  if x.den = 1 then intToDec x.num
  else
    let n := x.num.natAbs
    let d := x.den
    let intDigits := Nat.log 10 (max 1 (n / d)) + 1
    let k := 6 - min 6 intDigits
    let m := (n * 10 ^ k * 2 + d) / (2 * d)
    let frac := trimZeros (padZeros k (m % 10 ^ k))
    (if x.num < 0 then "-" else "") ++ toString (m / 10 ^ k) ++
      (if frac = "" then "" else "." ++ frac)

/-- `runtime_value_to_string` (`runtime.c:695-738`): numbers with `%.2f`,
strings unquoted, booleans as `true`/`false`, null as `null`, anything
else as `unknown`. -/
def runtime_value_to_string : RuntimeValue → String
  | .number x => fmt_f2 x
  | .string s => s
  | .boolean b => if b then "true" else "false"
  | .null => "null"
  | _ => "unknown"

/-! ## The bytecode chunk and the VM -/

/-- `BytecodeChunk`: a byte buffer and a parallel constants pool (the
capacity fields track allocation only and carry no semantic content). -/
structure BytecodeChunk where
  code : List ℕ
  constants : List RuntimeValue

/-- `vm_chunk_write_byte`: append one byte to the code buffer. -/
def vm_chunk_write_byte (ch : BytecodeChunk) (b : ℕ) : BytecodeChunk :=
  { ch with code := ch.code ++ [b] }

/-- `vm_chunk_add_constant`: append a constant, returning its index. -/
def vm_chunk_add_constant (ch : BytecodeChunk) (v : RuntimeValue) :
    ℕ × BytecodeChunk :=
  (ch.constants.length, { ch with constants := ch.constants ++ [v] })

/-- The VM's mutable run state: instruction pointer (an index into
`code`), operand stack (top at the head), the process-wide global slot
array `g_globals` (`virtual_machine.c:157`), the stdout lines printed so
far, and the stderr diagnostics written so far. -/
structure VMState where
  ip : ℕ
  stack : List RuntimeValue
  globals : List RuntimeValue
  output : List String
  errs : List String

/-- `vm->stack_capacity`, fixed at 256 slots by `vm_create`. -/
def stackCapacity : ℕ := 256

/-- `static RuntimeValue g_globals[256]`: static storage is
zero-initialised, and an all-zero `RuntimeValue` has tag 0 (NUMBER) with
payload `0.0`. -/
def initGlobals : List RuntimeValue := List.replicate 256 (.number 0)

/-- `vm_push` (`virtual_machine.c:119-127`): on overflow it writes a
diagnostic and returns without pushing; otherwise it pushes. -/
def vm_push (st : VMState) (v : RuntimeValue) : VMState :=
  if stackCapacity ≤ st.stack.length then
    { st with errs := st.errs ++ ["VM Error: Stack overflow.\n"] }
  else
    { st with stack := v :: st.stack }

/-- `vm_pop` (`virtual_machine.c:129-138`): on underflow it writes a
diagnostic and returns a null value; otherwise it pops the top. -/
def vm_pop (st : VMState) : RuntimeValue × VMState :=
  match st.stack with
  | [] => (.null, { st with errs := st.errs ++ ["VM Error: Stack underflow.\n"] })
  | v :: rest => (v, { st with stack := rest })

/-- Result of one dispatch iteration of `vm_run`: fall through to the
next instruction, `return status` out of `vm_run`, or undefined behaviour
(a read outside the `code`/`constants` buffers). -/
inductive StepResult where
  | next (st : VMState)
  | halt (status : ℕ) (st : VMState)
  | fault (st : VMState)

/-- The boolean-falseness test of OP_JUMP_IF_FALSE
(`virtual_machine.c:483-493`): false boolean, zero number, or null; every
other value (strings, arrays, objects, functions) does not jump. -/
def jump_if_false_cond : RuntimeValue → Bool
  | .boolean b => !b
  | .number x => decide (x = 0)
  | .null => true
  | _ => false

/-- The result OP_EQ .. OP_GTE push (`virtual_machine.c:423-473`), given
the instruction byte and the two popped operands `a` (below) and `b`
(top): numeric comparison when both are numbers; otherwise only EQ/NEQ
compare (same-tag booleans, strings, nulls; everything else unequal) and
the ordering opcodes yield `false`. -/
def comparisonResult (instr : ℕ) (a b : RuntimeValue) : Bool :=
  match a, b with
  | .number x, .number y =>
    match instr with
    | 21 => decide (x = y)
    | 22 => decide (x ≠ y)
    | 23 => decide (x < y)
    | 24 => decide (y < x)
    | 25 => decide (x ≤ y)
    | 26 => decide (y ≤ x)
    | _ => false
  | _, _ =>
    if instr == 21 || instr == 22 then
      let equal : Bool :=
        match a, b with
        | .boolean p, .boolean q => p == q
        | .string s, .string t => s == t
        | .null, .null => true
        | _, _ => false
      if instr == 22 then !equal else equal
    else false

/-- The line OP_PRINT writes to stdout (`virtual_machine.c:611-633`):
numbers via `%g`, strings verbatim, booleans, null, and
`[Object or Array]` for everything else — each followed by a newline. -/
def printLine : RuntimeValue → String
  | .number x => fmt_g x ++ "\n"
  | .string s => s ++ "\n"
  | .boolean b => (if b then "true" else "false") ++ "\n"
  | .null => "null\n"
  | _ => "[Object or Array]\n"

/-- Read the byte at index `i` of the code buffer, if it is in bounds. -/
def codeByte (ch : BytecodeChunk) (i : ℕ) : Option ℕ := ch.code.get? i

/-- One iteration of the `vm_run` dispatch loop
(`virtual_machine.c:159-650`), faithful to each opcode case.  Opcode
numbers follow the `OpCode` enum: NOOP 0, EOF 1, POP 2, DUP 3, SWAP 4,
LOAD_CONST 5, LOAD_VAR 6, STORE_VAR 7, ADD 12, SUB 13, MUL 14, DIV 15,
MOD 16, NEG 17, NOT 18, EQ 21, NEQ 22, LT 23, GT 24, LTE 25, GTE 26,
JUMP 27, JUMP_IF_FALSE 28, LOOP 30, CALL 31, RETURN 32, NEW_ARRAY 33,
ARRAY_PUSH 34, GET_INDEX 35, PRINT 40, TO_STRING 41; every other byte
falls to the unknown-opcode default. -/
def vmStep (ch : BytecodeChunk) (st : VMState) : StepResult :=
  match codeByte ch st.ip with
  | none => .fault st
  | some instr =>
    match instr with
    | 0 => .next { st with ip := st.ip + 1 }
    | 1 => .halt 0 st
    | 2 =>
      let (_, st1) := vm_pop st
      .next { st1 with ip := st.ip + 1 }
    | 3 =>
      let (v, st1) := vm_pop st
      .next { vm_push (vm_push st1 v) v with ip := st.ip + 1 }
    | 4 =>
      let (a, st1) := vm_pop st
      let (b, st2) := vm_pop st1
      .next { vm_push (vm_push st2 a) b with ip := st.ip + 1 }
    | 5 =>
      match codeByte ch (st.ip + 1) with
      | none => .fault st
      | some idx =>
        match ch.constants.get? idx with
        | none => .fault st
        | some c => .next { vm_push st c with ip := st.ip + 2 }
    | 6 =>
      match codeByte ch (st.ip + 1) with
      | none => .fault st
      | some idx =>
        .next { vm_push st (st.globals.getD idx .null) with ip := st.ip + 2 }
    | 7 =>
      match codeByte ch (st.ip + 1) with
      | none => .fault st
      | some idx =>
        let (v, st1) := vm_pop st
        .next { st1 with globals := st1.globals.set idx v, ip := st.ip + 2 }
    | 12 =>
      let (b, st1) := vm_pop st
      let (a, st2) := vm_pop st1
      match a, b with
      | .string s, .string t =>
        .next { vm_push st2 (.string (s ++ t)) with ip := st.ip + 1 }
      | .string s, bv =>
        .next { vm_push st2 (.string (s ++ runtime_value_to_string bv)) with
                  ip := st.ip + 1 }
      | av, .string t =>
        .next { vm_push st2 (.string (runtime_value_to_string av ++ t)) with
                  ip := st.ip + 1 }
      | .number x, .number y =>
        .next { vm_push st2 (.number (x + y)) with ip := st.ip + 1 }
      | _, _ =>
        .halt 1 { st2 with
          errs := st2.errs ++ ["VM Error: OP_ADD cannot handle these operand types.\n"] }
    | 13 =>
      let (b, st1) := vm_pop st
      let (a, st2) := vm_pop st1
      match a, b with
      | .number x, .number y =>
        .next { vm_push st2 (.number (x - y)) with ip := st.ip + 1 }
      | _, _ =>
        .halt 1 { st2 with errs := st2.errs ++ ["VM Error: OP_SUB expects two numbers.\n"] }
    | 14 =>
      let (b, st1) := vm_pop st
      let (a, st2) := vm_pop st1
      match a, b with
      | .number x, .number y =>
        .next { vm_push st2 (.number (x * y)) with ip := st.ip + 1 }
      | _, _ =>
        .halt 1 { st2 with errs := st2.errs ++ ["VM Error: OP_MUL expects two numbers.\n"] }
    | 15 =>
      let (b, st1) := vm_pop st
      let (a, st2) := vm_pop st1
      match a, b with
      | .number x, .number y =>
        if y = 0 then
          .halt 1 { st2 with errs := st2.errs ++ ["VM Error: Division by zero.\n"] }
        else
          .next { vm_push st2 (.number (x / y)) with ip := st.ip + 1 }
      | _, _ =>
        .halt 1 { st2 with errs := st2.errs ++ ["VM Error: OP_DIV expects two numbers.\n"] }
    | 16 =>
      let (b, st1) := vm_pop st
      let (a, st2) := vm_pop st1
      match a, b with
      | .number x, .number y =>
        if y = 0 then
          .halt 1 { st2 with errs := st2.errs ++ ["VM Error: Modulo by zero.\n"] }
        else
          .next { vm_push st2 (.number (fmodQ x y)) with ip := st.ip + 1 }
      | _, _ =>
        .halt 1 { st2 with errs := st2.errs ++ ["VM Error: OP_MOD expects two numbers.\n"] }
    | 17 =>
      let (v, st1) := vm_pop st
      match v with
      | .number x => .next { vm_push st1 (.number (-x)) with ip := st.ip + 1 }
      | _ =>
        .halt 1 { st1 with errs := st1.errs ++ ["VM Error: OP_NEG expects a number.\n"] }
    | 18 =>
      let (v, st1) := vm_pop st
      match v with
      | .boolean b => .next { vm_push st1 (.boolean !b) with ip := st.ip + 1 }
      | w =>
        let truthy : Bool :=
          match w with
          | .number x => decide (x ≠ 0)
          | .string s => decide (s ≠ "")
          | _ => false
        .next { vm_push st1 (.boolean !truthy) with ip := st.ip + 1 }
    | 21 | 22 | 23 | 24 | 25 | 26 =>
      let (b, st1) := vm_pop st
      let (a, st2) := vm_pop st1
      .next { vm_push st2 (.boolean (comparisonResult instr a b)) with ip := st.ip + 1 }
    | 27 =>
      match codeByte ch (st.ip + 1), codeByte ch (st.ip + 2) with
      | some hi, some lo => .next { st with ip := st.ip + 3 + (hi * 256 + lo) }
      | _, _ => .fault st
    | 28 =>
      match codeByte ch (st.ip + 1), codeByte ch (st.ip + 2) with
      | some hi, some lo =>
        let (cond, st1) := vm_pop st
        if jump_if_false_cond cond then
          .next { st1 with ip := st.ip + 3 + (hi * 256 + lo) }
        else
          .next { st1 with ip := st.ip + 3 }
      | _, _ => .fault st
    | 30 =>
      match codeByte ch (st.ip + 1), codeByte ch (st.ip + 2) with
      | some hi, some lo =>
        if hi * 256 + lo ≤ st.ip + 3 then
          .next { st with ip := st.ip + 3 - (hi * 256 + lo) }
        else
          .fault st
      | _, _ => .fault st
    | 31 =>
      match codeByte ch (st.ip + 1), codeByte ch (st.ip + 2) with
      | some _, some _ => .next { st with ip := st.ip + 3 }
      | _, _ => .fault st
    | 32 => .halt 0 st
    | 33 => .next { vm_push st (.array []) with ip := st.ip + 1 }
    | 34 =>
      let (v, st1) := vm_pop st
      let (arr, st2) := vm_pop st1
      match arr with
      | .array xs => .next { vm_push st2 (.array (xs ++ [v])) with ip := st.ip + 1 }
      | _ =>
        .halt 1 { st2 with errs := st2.errs ++ ["VM Error: OP_ARRAY_PUSH on non-array.\n"] }
    | 35 =>
      let (indexVal, st1) := vm_pop st
      let (arrVal, st2) := vm_pop st1
      match arrVal with
      | .array xs =>
        match indexVal with
        | .number x =>
          let idx : ℤ := ratTrunc x
          if idx < 0 ∨ (xs.length : ℤ) ≤ idx then
            .halt 1 { st2 with errs := st2.errs ++
              ["VM Error: Array index " ++ intToDec idx ++ " out of bounds.\n"] }
          else
            .next { vm_push st2 (xs.getD idx.toNat .null) with ip := st.ip + 1 }
        | _ =>
          .halt 1 { st2 with errs := st2.errs ++
            ["VM Error: OP_GET_INDEX requires numeric index.\n"] }
      | _ =>
        .halt 1 { st2 with errs := st2.errs ++ ["VM Error: OP_GET_INDEX on non-array.\n"] }
    | 40 =>
      let (v, st1) := vm_pop st
      .next { st1 with output := st1.output ++ [printLine v], ip := st.ip + 1 }
    | 41 => .next { st with ip := st.ip + 1 }
    | other =>
      .halt 1 { st with errs := st.errs ++
        ["VM Error: Unknown opcode " ++ toString other ++ ".\n"] }

/-- Outcome of the whole `vm_run` loop under a fuel bound: the returned
status, a fault (undefined behaviour), or fuel exhaustion. -/
inductive RunResult where
  | done (status : ℕ) (st : VMState)
  | fault (st : VMState)
  | more (st : VMState)

/-- `vm_run` (`virtual_machine.c:159`): iterate `vmStep` until a `return`
or a fault, bounded by `fuel` iterations. -/
def vm_run : ℕ → BytecodeChunk → VMState → RunResult
  | 0, _, st => .more st
  | fuel + 1, ch, st =>
    match vmStep ch st with
    | .next st' => vm_run fuel ch st'
    | .halt s st' => .done s st'
    | .fault st' => .fault st'

/-- The state a run ended in, whatever the outcome. -/
def RunResult.state : RunResult → VMState
  | .done _ st => st
  | .fault st => st
  | .more st => st

/-- The fresh per-run state `vm_create` builds (ip at the start of the
code, empty stack, no output yet), over a given global slot array — the
globals are NOT part of the per-VM allocation in the source. -/
def freshVMState (globals : List RuntimeValue) : VMState :=
  { ip := 0, stack := [], globals := globals, output := [], errs := [] }

/-- Run two chunks in sequence in one process, the way two
`vm_create`/`vm_run` calls in `main.c` do: both runs read and write the
single static `g_globals` array, so the second run starts from the
globals the first run left behind. -/
def process_run_two (fuel : ℕ) (c1 c2 : BytecodeChunk) : RunResult × RunResult :=
  let r1 := vm_run fuel c1 (freshVMState initGlobals)
  (r1, vm_run fuel c2 (freshVMState r1.state.globals))

/-! ## The compiler (`compiler.c`) -/

/-- The token kinds of `TokenType` in `lexer.h`, in enum order. -/
inductive TokenType where
  | identifier
  | number
  | string
  | operator
  | keyword
  | punctuation
  | boolean
  | null
  | eof
  | error
deriving DecidableEq

/-- The AST node forms `compile_node` handles (`parser.h` / `compiler.c`).
A literal stores its token kind and lexeme, exactly as `ASTNode.literal`
does; `AST_IMPORT` performs host file I/O during compilation and is
outside the compile-and-execute core modelled here (no claim concerns
it), and `function_def`'s parameters and body are dropped because
`compile_statement` ignores them. -/
inductive ASTNode where
  | literal (token_type : TokenType) (value : String)
  | variable_ref (variable_name : String)
  | assignment (variable_name : String) (value : ASTNode)
  | binary_op (op_symbol : String) (left right : ASTNode)
  | unary_op (op_symbol : String) (operand : ASTNode)
  | function_call (function_name : String) (arguments : List ASTNode)
  | array_literal (elements : List ASTNode)
  | index_access (array_expr index_expr : ASTNode)
  | variable_decl (variable_name : String) (initial_value : Option ASTNode)
  | if_statement (condition : ASTNode) (body : ASTNode) (else_body : Option ASTNode)
  | while_loop (condition body : ASTNode)
  | for_loop (initializer condition increment : Option ASTNode) (body : ASTNode)
  | function_def (function_name : String)
  | block (statements : List ASTNode)
  | switch_case

/-- One symbol-table record (`Symbol` in `compiler.h`). -/
structure Symbol where
  name : String
  index : ℕ
  isFunction : Bool

/-- The flat symbol table shared across a compilation. -/
structure SymbolTable where
  symbols : List Symbol

/-- `symbol_table_get_or_add` (`compiler.c:48-64`): return the index of an
existing entry with this name, else append a new entry whose index is its
position (indices are dense, first-seen order). -/
def symbol_table_get_or_add (t : SymbolTable) (name : String) (isFunction : Bool) :
    ℕ × SymbolTable :=
  match t.symbols.find? (fun s => s.name == name) with
  | some s => (s.index, t)
  | none =>
    (t.symbols.length, ⟨t.symbols ++ [⟨name, t.symbols.length, isFunction⟩]⟩)

/-- `emit_byte`: append one byte to the chunk. -/
def emit_byte (ch : BytecodeChunk) (b : ℕ) : BytecodeChunk :=
  vm_chunk_write_byte ch b

/-- `emit_jump` (`compiler.c:77-84`): the jump opcode followed by the
placeholder bytes `0xFF 0xFF`; returns the position of the placeholder. -/
def emit_jump (ch : BytecodeChunk) (jumpOp : ℕ) : ℕ × BytecodeChunk :=
  let ch1 := emit_byte (emit_byte (emit_byte ch jumpOp) 255) 255
  (ch1.code.length - 2, ch1)

/-- `patch_jump` (`compiler.c:86-92`): overwrite the placeholder with the
big-endian distance from the byte after the operand to the current end of
code — high byte `(d >> 8) & 0xFF`, low byte `d & 0xFF`. -/
def patch_jump (ch : BytecodeChunk) (offset : ℕ) : BytecodeChunk :=
  let d := ch.code.length - offset - 2
  { ch with code := (ch.code.set offset ((d / 256) % 256)).set (offset + 1) (d % 256) }

/-- `emit_constant` (`compiler.c:97-101`): add the constant and emit
`LOAD_CONST` with its index cast to a byte. -/
def emit_constant (ch : BytecodeChunk) (v : RuntimeValue) : BytecodeChunk :=
  let (index, ch1) := vm_chunk_add_constant ch v
  emit_byte (emit_byte ch1 5) (index % 256)

/-- `atof` on the numeric lexemes this front end produces: an unsigned
digit run, optionally followed by `.` and a second digit run, any further
characters ignored (so `atof("1.2.3") = 1.2` as in C).  Signs and
exponents never occur in these lexemes.  Returns (value, digit count,
rest). -/
def readDigits : List Char → ℕ → ℕ → ℕ × ℕ × List Char
  | [], acc, cnt => (acc, cnt, [])
  | c :: rest, acc, cnt =>
    if c.isDigit then readDigits rest (acc * 10 + (c.toNat - 48)) (cnt + 1)
    else (acc, cnt, c :: rest)

/-- The numeric value `atof(node->literal.value)` assigns
(`compiler.c:114`), on the `ℚ` abstraction of the double. -/
def atofQ (s : String) : ℚ :=
  let (w, _, rest) := readDigits s.data 0 0
  match rest with
  | '.' :: r2 =>
    let (f, k, _) := readDigits r2 0 0
    (w : ℚ) + (f : ℚ) / (10 : ℚ) ^ k
  | _ => (w : ℚ)

/-- The constant an `AST_LITERAL` compiles to (`compiler.c:108-131`). -/
def literalConstant (token_type : TokenType) (value : String) : RuntimeValue :=
  match token_type with
  | .number => .number (atofQ value)
  | .string => .string value
  | .boolean => .boolean (value == "true")
  | .null => .null
  | _ => .null

mutual

/-- `compile_expression` (`compiler.c:106-250`): emit code for an
expression into the chunk, threading the symbol table.  Compile-time
`fprintf(stderr, ...)` diagnostics (unsupported operator, unexpected
node) do not stop compilation in the source and are not tracked here; the
corresponding branches emit exactly the bytes the C emits (none for the
unsupported operator itself). -/
def compile_expression (node : ASTNode) (ch : BytecodeChunk) (t : SymbolTable) :
    BytecodeChunk × SymbolTable :=
  match node with
  | .literal tt v => (emit_constant ch (literalConstant tt v), t)
  | .variable_ref name =>
    let (varIndex, t1) := symbol_table_get_or_add t name false
    (emit_byte (emit_byte ch 6) (varIndex % 256), t1)
  | .assignment v e =>
    let (ch1, t1) := compile_expression e ch t
    let (varIndex, t2) := symbol_table_get_or_add t1 v false
    (emit_byte (emit_byte ch1 7) (varIndex % 256), t2)
  | .binary_op op l r =>
    let (ch1, t1) := compile_expression l ch t
    let (ch2, t2) := compile_expression r ch1 t1
    let out :=
      if op == "+" then emit_byte ch2 12
      else if op == "-" then emit_byte ch2 13
      else if op == "*" then emit_byte ch2 14
      else if op == "/" then emit_byte ch2 15
      else if op == "==" then emit_byte ch2 21
      else if op == "!=" then emit_byte ch2 22
      else if op == "<" then emit_byte ch2 23
      else if op == ">" then emit_byte ch2 24
      else if op == "<=" then emit_byte ch2 25
      else if op == ">=" then emit_byte ch2 26
      else ch2
    (out, t2)
  | .unary_op op e =>
    let (ch1, t1) := compile_expression e ch t
    let out :=
      if op == "!" then emit_byte ch1 18
      else if op == "-" then emit_byte ch1 17
      else ch1
    (out, t1)
  | .function_call name args =>
    if name == "print" then
      let (ch1, t1) := compile_args args ch t
      (emit_byte ch1 40, t1)
    else
      let (ch1, t1) := compile_args args ch t
      let (funcIndex, t2) := symbol_table_get_or_add t1 name true
      (emit_byte (emit_byte (emit_byte ch1 31) (funcIndex % 256)) (args.length % 256), t2)
  | .array_literal elems => compile_array_elems elems (emit_byte ch 33) t
  | .index_access a i =>
    let (ch1, t1) := compile_expression a ch t
    let (ch2, t2) := compile_expression i ch1 t1
    (emit_byte ch2 35, t2)
  | _ => (ch, t)

/-- The argument loop of `AST_FUNCTION_CALL`: compile each argument left
to right. -/
def compile_args (args : List ASTNode) (ch : BytecodeChunk) (t : SymbolTable) :
    BytecodeChunk × SymbolTable :=
  match args with
  | [] => (ch, t)
  | a :: rest =>
    let (ch1, t1) := compile_expression a ch t
    compile_args rest ch1 t1

/-- The element loop of `AST_ARRAY_LITERAL`: for each element emit `DUP`,
the element, `ARRAY_PUSH`. -/
def compile_array_elems (elems : List ASTNode) (ch : BytecodeChunk) (t : SymbolTable) :
    BytecodeChunk × SymbolTable :=
  match elems with
  | [] => (ch, t)
  | e :: rest =>
    let (ch1, t1) := compile_expression e (emit_byte ch 3) t
    compile_array_elems rest (emit_byte ch1 34) t1

/-- `compile_statement` (`compiler.c:255-457`).  The final catch-all case
is the source's expression-statement group (assignment, binary op,
function call, array literal, index access, unary op, literal, variable):
compile the expression, then emit `POP`.  `AST_SWITCH_CASE` only warns and
emits nothing; `AST_FUNCTION_DEF` reserves a symbol and emits nothing. -/
def compile_statement (node : ASTNode) (ch : BytecodeChunk) (t : SymbolTable) :
    BytecodeChunk × SymbolTable :=
  match node with
  | .variable_decl name init =>
    let (ch1, t1) :=
      match init with
      | some e => compile_expression e ch t
      | none => (emit_constant ch .null, t)
    let (varIndex, t2) := symbol_table_get_or_add t1 name false
    (emit_byte (emit_byte ch1 7) (varIndex % 256), t2)
  | .if_statement c body els =>
    let (ch1, t1) := compile_expression c ch t
    let (elseJump, ch2) := emit_jump ch1 28
    let (ch3, t2) := compile_statement body ch2 t1
    let (endJump, ch4) := emit_jump ch3 27
    let ch5 := patch_jump ch4 elseJump
    let (ch6, t3) :=
      match els with
      | some e => compile_statement e ch5 t2
      | none => (ch5, t2)
    (patch_jump ch6 endJump, t3)
  | .while_loop c body =>
    let loopStart := ch.code.length
    let (ch1, t1) := compile_expression c ch t
    let (loopEndJump, ch2) := emit_jump ch1 28
    let (ch3, t2) := compile_statement body ch2 t1
    let ch4 := emit_byte ch3 30
    let offset := ch4.code.length - loopStart + 2
    let ch5 := emit_byte (emit_byte ch4 ((offset / 256) % 256)) (offset % 256)
    (patch_jump ch5 loopEndJump, t2)
  | .for_loop init c inc body =>
    let (ch1, t1) :=
      match init with
      | some i => compile_statement i ch t
      | none => (ch, t)
    let loopStart := ch1.code.length
    let (ch2, t2) :=
      match c with
      | some ce => compile_expression ce ch1 t1
      | none => (emit_constant ch1 (.boolean true), t1)
    let (loopEndJump, ch3) := emit_jump ch2 28
    let (ch4, t3) := compile_statement body ch3 t2
    let (ch5, t4) :=
      match inc with
      | some ie =>
        let (chx, tx) := compile_expression ie ch4 t3
        (emit_byte chx 2, tx)
      | none => (ch4, t3)
    let ch6 := emit_byte ch5 30
    let offset := ch6.code.length - loopStart + 2
    let ch7 := emit_byte (emit_byte ch6 ((offset / 256) % 256)) (offset % 256)
    (patch_jump ch7 loopEndJump, t4)
  | .function_def name =>
    let (_, t1) := symbol_table_get_or_add t name true
    (ch, t1)
  | .block stmts => compile_stmts stmts ch t
  | .switch_case => (ch, t)
  | e =>
    let (ch1, t1) := compile_expression e ch t
    (emit_byte ch1 2, t1)

/-- The statement loop of `AST_BLOCK` (each statement goes through
`compile_node`, which forwards every node form to `compile_statement`). -/
def compile_stmts (stmts : List ASTNode) (ch : BytecodeChunk) (t : SymbolTable) :
    BytecodeChunk × SymbolTable :=
  match stmts with
  | [] => (ch, t)
  | s :: rest =>
    let (ch1, t1) := compile_statement s ch t
    compile_stmts rest ch1 t1

end

/-- `compile_node` (`compiler.c:462-490`): every node form it recognises
is forwarded to `compile_statement`. -/
def compile_node (node : ASTNode) (ch : BytecodeChunk) (t : SymbolTable) :
    BytecodeChunk × SymbolTable :=
  compile_statement node ch t

/-- `compile_ast` (`compiler.c:495-506`): compile the root, then append
the terminal `OP_EOF` sentinel. -/
def compile_ast (ast : ASTNode) (ch : BytecodeChunk) (t : SymbolTable) :
    BytecodeChunk × SymbolTable :=
  let (ch1, t1) := compile_node ast ch t
  (emit_byte ch1 1, t1)

/-- The empty chunk `vm_create_chunk` returns. -/
def emptyChunk : BytecodeChunk := ⟨[], []⟩

/-- The empty symbol table `symbol_table_create` returns. -/
def emptySymtab : SymbolTable := ⟨[]⟩

/-- The code a run of `k` constant loads compiles to when the constant
pool already holds `base` entries: `LOAD_CONST base, LOAD_CONST base+1,
…` with each index cast to a byte, exactly what `emit_constant` emits for
`k` consecutive literals. -/
def loadsFrom : ℕ → ℕ → List ℕ
  | _, 0 => []
  | base, k + 1 => 5 :: base % 256 :: loadsFrom (base + 1) k

/-! ## The bytecode file format (`main.c`)

`write_chunk` and `read_chunk` move data with paired `fwrite`/`fread`
calls of fixed host-side widths.  The file is modelled as the sequence of
those transfers: a host-order 32-bit `int`, a raw byte, an 8-byte
`double`, or a 1-byte `bool`.  A read of the wrong width at the wrong
place cannot succeed against this model for the same reason a misaligned
parse of the binary file reads garbage; the parser functions below
consume exactly the atoms the writer emits. -/

/-- One `fwrite` transfer unit in the `.embc` file. -/
inductive FileAtom where
  | i32 (n : ℤ)
  | byte (b : ℕ)
  | f64 (x : ℚ)
  | bool8 (b : Bool)

/-- The byte sequence of a C string: its characters up to the first NUL,
which is where `strlen` stops. -/
def cStringBytes (s : String) : List Char :=
  s.data.takeWhile (fun c => c ≠ '\x00')

/-- The payload `write_chunk` emits for one constant (`main.c:210-240`):
the enum tag as an `int`-width write, then the tag-dependent payload;
ARRAY/OBJECT/FUNCTION tags are written but their payload is skipped with
a warning. -/
def serialize_constant (v : RuntimeValue) : List FileAtom :=
  match v with
  | .number x => [.i32 0, .f64 x]
  | .string s =>
    [.i32 1, .i32 (cStringBytes s).length] ++ (cStringBytes s).map (fun c => .byte c.toNat)
  | .boolean b => [.i32 2, .bool8 b]
  | .null => [.i32 3]
  | .array _ => [.i32 4]
  | .object => [.i32 5]
  | .function => [.i32 6]

/-- `write_chunk` (`main.c:195-244`): `code_count`, `constants_count`,
the raw code bytes, then each constant. -/
def write_chunk (ch : BytecodeChunk) : List FileAtom :=
  [.i32 ch.code.length, .i32 ch.constants.length] ++
    ch.code.map .byte ++ (ch.constants.map serialize_constant).flatten

/-- Consume one `int`-width read. -/
def read_i32 : List FileAtom → Option (ℤ × List FileAtom)
  | .i32 n :: rest => some (n, rest)
  | _ => none

/-- Consume one `double`-width read. -/
def read_f64 : List FileAtom → Option (ℚ × List FileAtom)
  | .f64 x :: rest => some (x, rest)
  | _ => none

/-- Consume one `bool`-width read. -/
def read_bool8 : List FileAtom → Option (Bool × List FileAtom)
  | .bool8 b :: rest => some (b, rest)
  | _ => none

/-- Consume `n` raw bytes. -/
def read_bytes : ℕ → List FileAtom → Option (List ℕ × List FileAtom)
  | 0, rest => some ([], rest)
  | n + 1, .byte b :: rest =>
    match read_bytes n rest with
    | some (bs, rest') => some (b :: bs, rest')
    | none => none
  | _ + 1, _ => none

/-- The constants loop of `read_chunk` (`main.c:117-186`): for each
constant read the tag and its payload; a negative string length or an
unsupported tag fails the load. -/
def read_constants : ℕ → List FileAtom → Option (List RuntimeValue × List FileAtom)
  | 0, rest => some ([], rest)
  | n + 1, rest =>
    match read_i32 rest with
    | none => none
    | some (tag, r1) =>
      let one : Option (RuntimeValue × List FileAtom) :=
        match tag with
        | 0 =>
          match read_f64 r1 with
          | some (x, r2) => some (.number x, r2)
          | none => none
        | 1 =>
          match read_i32 r1 with
          | none => none
          | some (slen, r2) =>
            if slen < 0 then none
            else
              match read_bytes slen.toNat r2 with
              | some (bs, r3) => some (.string (String.mk (bs.map Char.ofNat)), r3)
              | none => none
        | 2 =>
          match read_bool8 r1 with
          | some (b, r2) => some (.boolean b, r2)
          | none => none
        | 3 => some (.null, r1)
        | _ => none
      match one with
      | none => none
      | some (v, r2) =>
        match read_constants n r2 with
        | some (vs, r3) => some (v :: vs, r3)
        | none => none

/-- `read_chunk` (`main.c:61-190`): read the two counts, the code bytes,
and the constants; the source never checks for trailing data, so leftover
atoms are ignored.  A negative count makes the subsequent `fread` size
computation fail the load. -/
def read_chunk (atoms : List FileAtom) : Option BytecodeChunk :=
  match read_i32 atoms with
  | none => none
  | some (cc, r1) =>
    if cc < 0 then none
    else
      match read_i32 r1 with
      | none => none
      | some (kc, r2) =>
        if kc < 0 then none
        else
          match read_bytes cc.toNat r2 with
          | none => none
          | some (codeBytes, r3) =>
            match read_constants kc.toNat r3 with
            | none => none
            | some (consts, _) => some ⟨codeBytes, consts⟩

/-- The constants the round-trip claim restricts to: tags
number/boolean/null/string, and string payloads that are genuine C
strings (no interior NUL, character codes one byte wide). -/
def constantPersistable : RuntimeValue → Prop
  | .number _ => True
  | .boolean _ => True
  | .null => True
  | .string s => (∀ c ∈ s.data, c ≠ '\x00' ∧ c.toNat < 256)
  | _ => False

/-! ## The lexer (`lexer.c`)

The C lexer walks `source` by an integer `position` with
`current_char = source[position]`; the model keeps the yet-unread
characters as a list (`[]` standing for the terminating NUL), together
with the 1-based line and column counters, and each C scanning loop
becomes a recursion over that list. -/

/-- The lexer state (`Lexer` in `lexer.h`). -/
structure Lexer where
  rest : List Char
  line : ℕ
  column : ℕ

/-- `lexer_init`: position 0, line 1, column 1. -/
def lexer_init (source : String) : Lexer := ⟨source.data, 1, 1⟩

/-- A token (`Token` in `lexer.h`); a `none` value is the C NULL value
pointer of EOF and error tokens. -/
structure Token where
  type : TokenType
  value : Option String
  line : ℕ
  column : ℕ

/-- `is_keyword` (`lexer.c:245-259`). -/
def is_keyword (s : String) : Bool :=
  s == "if" || s == "else" || s == "while" || s == "for" || s == "return" ||
  s == "break" || s == "continue" || s == "function" || s == "var" ||
  s == "const" || s == "let" || s == "true" || s == "false" || s == "null"

/-- The `//` comment loop of `lexer_skip_whitespace_and_comments`:
advance to the next newline or the end of input (the newline itself is
left for the whitespace loop); returns the remaining input and column. -/
def skip_line_chars : List Char → ℕ → List Char × ℕ
  | [], col => ([], col)
  | c :: rs, col => if c = '\n' then (c :: rs, col) else skip_line_chars rs (col + 1)

/-- The `/* ... */` loop: advance until `*` directly followed by `/`,
then consume both; an unterminated block comment stops at end of input. -/
def skip_block_chars : List Char → ℕ → ℕ → List Char × ℕ × ℕ
  | [], line, col => ([], line, col)
  | c :: rs, line, col =>
    if c = '*' ∧ rs.head? = some '/' then (rs.tail, line, col + 2)
    else
      skip_block_chars rs (if c = '\n' then line + 1 else line)
        (if c = '\n' then 1 else col + 1)

theorem skip_line_chars_length (l : List Char) :
    ∀ col, (skip_line_chars l col).1.length ≤ l.length := by
  induction l with
  | nil => intro col; exact le_refl _
  | cons c rs ih =>
    intro col
    rw [skip_line_chars]
    by_cases hc : c = '\n'
    · simp [hc]
    · simp only [hc, if_false]
      exact le_trans (ih (col + 1)) (Nat.le_succ _)

theorem skip_block_chars_length (l : List Char) :
    ∀ line col, (skip_block_chars l line col).1.length ≤ l.length := by
  induction l with
  | nil => intro line col; exact le_refl _
  | cons c rs ih =>
    intro line col
    rw [skip_block_chars]
    by_cases hc : c = '*' ∧ rs.head? = some '/'
    · simp only [hc, if_true]
      exact le_trans (List.length_tail _ ▸ Nat.sub_le _ _) (Nat.le_succ _)
    · simp only [hc, if_false]
      exact le_trans (ih _ _) (Nat.le_succ _)

/-- `lexer_skip_whitespace_and_comments` (`lexer.c:37-62`), on the
character list with line/column tracking. -/
def skip_ws_chars (l : List Char) (line col : ℕ) : List Char × ℕ × ℕ :=
  match hl : l with
  | [] => ([], line, col)
  | c :: rs =>
    if c = ' ' ∨ c = '\t' ∨ c = '\n' ∨ c = '\r' then
      skip_ws_chars rs (if c = '\n' then line + 1 else line)
        (if c = '\n' then 1 else col + 1)
    else if c = '/' ∧ rs.head? = some '/' then
      skip_ws_chars (skip_line_chars rs (col + 1)).1 line (skip_line_chars rs (col + 1)).2
    else if c = '/' ∧ rs.head? = some '*' then
      skip_ws_chars (skip_block_chars rs.tail line (col + 2)).1
        (skip_block_chars rs.tail line (col + 2)).2.1
        (skip_block_chars rs.tail line (col + 2)).2.2
    else (c :: rs, line, col)
termination_by l.length
decreasing_by
  · simp [hl]
  · exact Nat.lt_succ_of_le (skip_line_chars_length rs (col + 1))
  · refine Nat.lt_succ_of_le (le_trans (skip_block_chars_length rs.tail line (col + 2)) ?_)
    exact List.length_tail rs ▸ Nat.sub_le _ _

/-- `lexer_skip_whitespace_and_comments` on the lexer record. -/
def lexer_skip_whitespace_and_comments (lx : Lexer) : Lexer :=
  ⟨(skip_ws_chars lx.rest lx.line lx.column).1,
    (skip_ws_chars lx.rest lx.line lx.column).2.1,
    (skip_ws_chars lx.rest lx.line lx.column).2.2⟩

/-- The identifier/number scanning loops (`lexer_read_identifier`, and
the digit loop of `lexer_next_token`): take characters while `p` holds,
returning (lexeme, rest, column).  Neither loop's predicate accepts a
newline, so the line number never changes. -/
def take_while_chars (p : Char → Bool) : List Char → ℕ → List Char × List Char × ℕ
  | [], col => ([], [], col)
  | c :: rs, col =>
    if p c then
      ((c :: (take_while_chars p rs (col + 1)).1),
        (take_while_chars p rs (col + 1)).2.1, (take_while_chars p rs (col + 1)).2.2)
    else ([], c :: rs, col)

/-- The string-literal loop (`lexer.c:140-169`), entered after the
opening quote: accumulate characters (decoding the four supported
escapes) until the closing quote.  `none` content is the TOKEN_ERROR
outcome: end of input (unterminated string) or an invalid escape. -/
def read_string_chars : List Char → ℕ → ℕ → List Char →
    Option (List Char) × List Char × ℕ × ℕ
  | [], line, col, _ => (none, [], line, col)
  | c :: rs, line, col, acc =>
    if c = '"' then (some acc.reverse, rs, line, col + 1)
    else if c = '\\' then
      match rs with
      | [] => (none, [], line, col + 1)
      | e :: rs2 =>
        if e = 'n' then read_string_chars rs2 line (col + 2) ('\n' :: acc)
        else if e = 't' then read_string_chars rs2 line (col + 2) ('\t' :: acc)
        else if e = '\\' then read_string_chars rs2 line (col + 2) ('\\' :: acc)
        else if e = '"' then read_string_chars rs2 line (col + 2) ('"' :: acc)
        else (none, e :: rs2, line, col + 1)
    else
      read_string_chars rs (if c = '\n' then line + 1 else line)
        (if c = '\n' then 1 else col + 1) (c :: acc)

/-- `lexer_next_token` (`lexer.c:90-241`): skip whitespace and comments,
then dispatch on the current character exactly as the C does —
identifiers/keywords/booleans/null, numbers (digits and dots), string
literals, the two-character operator forms, single-character operators,
punctuation, and the error token for anything else. -/
def lexer_next_token (lx0 : Lexer) : Token × Lexer :=
  let lx := lexer_skip_whitespace_and_comments lx0
  match lx.rest with
  | [] => (⟨.eof, none, lx.line, lx.column⟩, lx)
  | c :: rs =>
    if c.isAlpha ∨ c = '_' then
      let scan := take_while_chars (fun ch => ch.isAlphanum || ch == '_') lx.rest lx.column
      let id := String.mk scan.1
      let lx1 : Lexer := ⟨scan.2.1, lx.line, scan.2.2⟩
      let ty :=
        if id == "true" || id == "false" then TokenType.boolean
        else if id == "null" then TokenType.null
        else if is_keyword id then TokenType.keyword
        else TokenType.identifier
      (⟨ty, some id, lx1.line, lx1.column⟩, lx1)
    else if c.isDigit then
      let scan := take_while_chars (fun ch => ch.isDigit || ch == '.') lx.rest lx.column
      let lx1 : Lexer := ⟨scan.2.1, lx.line, scan.2.2⟩
      (⟨.number, some (String.mk scan.1), lx1.line, lx1.column⟩, lx1)
    else if c = '"' then
      match read_string_chars rs lx.line (lx.column + 1) [] with
      | (some content, r, line, col) =>
        (⟨.string, some (String.mk content), line, col⟩, ⟨r, line, col⟩)
      | (none, r, line, col) => (⟨.error, none, line, col⟩, ⟨r, line, col⟩)
    else if c = '=' ∨ c = '!' ∨ c = '<' ∨ c = '>' ∨ c = '&' ∨ c = '|' then
      if rs.head? = some '=' then
        (⟨.operator, some (String.mk [c, '=']), lx.line, lx.column + 2⟩,
          ⟨rs.tail, lx.line, lx.column + 2⟩)
      else if c = '&' ∧ rs.head? = some '&' then
        (⟨.operator, some "&&", lx.line, lx.column + 2⟩, ⟨rs.tail, lx.line, lx.column + 2⟩)
      else if c = '|' ∧ rs.head? = some '|' then
        (⟨.operator, some "||", lx.line, lx.column + 2⟩, ⟨rs.tail, lx.line, lx.column + 2⟩)
      else
        (⟨.operator, some (String.mk [c]), lx.line, lx.column + 1⟩,
          ⟨rs, lx.line, lx.column + 1⟩)
    else if "+-*/%".data.contains c then
      (⟨.operator, some (String.mk [c]), lx.line, lx.column + 1⟩, ⟨rs, lx.line, lx.column + 1⟩)
    else if "()\x7b\x7d[],;.".data.contains c then
      (⟨.punctuation, some (String.mk [c]), lx.line, lx.column + 1⟩,
        ⟨rs, lx.line, lx.column + 1⟩)
    else (⟨.error, none, lx.line, lx.column + 1⟩, ⟨rs, lx.line, lx.column + 1⟩)

/-- Ordering opcodes (LT, GT, LTE, GTE) on operands that are not both
numbers leave the `comparison` flag at its initial `false`. -/
theorem comparisonResult_ordering_false (instr : ℕ)
    (hinstr : instr = 23 ∨ instr = 24 ∨ instr = 25 ∨ instr = 26)
    (a b : RuntimeValue) (hnn : runtimeTag a ≠ 0 ∨ runtimeTag b ≠ 0) :
    comparisonResult instr a b = false := by
  have h2122 : (instr == 21 || instr == 22) = false := by
    rcases hinstr with h | h | h | h <;> subst h <;> rfl
  cases a <;> cases b <;> simp_all [comparisonResult, runtimeTag, h2122]

/-- The shared pop-pop-push dance of OP_EQ .. OP_GTE: the step pushes
`comparisonResult` and falls through. -/
theorem vmStep_comparison (instr : ℕ)
    (hinstr : instr = 21 ∨ instr = 22 ∨ instr = 23 ∨ instr = 24 ∨ instr = 25 ∨ instr = 26)
    (a b : RuntimeValue) (vs g : List RuntimeValue) (out er : List String)
    (hcap : vs.length < stackCapacity) :
    vmStep ⟨[instr], []⟩ ⟨0, b :: a :: vs, g, out, er⟩ =
      .next ⟨1, .boolean (comparisonResult instr a b) :: vs, g, out, er⟩ := by
  rcases hinstr with h | h | h | h | h | h <;> subst h <;>
    simp [vmStep, codeByte, vm_pop, vm_push, Nat.not_le.mpr hcap]

/-! ## Claims -/

set_option maxRecDepth 20000

/-- C10: in the VM's JUMP_IF_FALSE the jump is taken exactly when the
popped condition is the boolean false, the number 0, or null; a string
(including the empty string), array, object, or function condition never
causes the jump, whatever the value model's truthiness rule says. -/
theorem jump_if_false_exact (hi lo : ℕ) (rest : List ℕ) (consts : List RuntimeValue)
    (v : RuntimeValue) (vs : List RuntimeValue) (g : List RuntimeValue)
    (out er : List String) :
    vmStep ⟨28 :: hi :: lo :: rest, consts⟩ ⟨0, v :: vs, g, out, er⟩ =
      .next ⟨if jump_if_false_cond v then 3 + (hi * 256 + lo) else 3, vs, g, out, er⟩ ∧
    (jump_if_false_cond v = true ↔ (v = .boolean false ∨ v = .number 0 ∨ v = .null)) := by
  constructor
  · by_cases h : jump_if_false_cond v = true
    · simp [vmStep, codeByte, vm_pop, h]
    · simp [vmStep, codeByte, vm_pop, h]
  · cases v <;> simp [jump_if_false_cond]

/-- C7 counterexample: the claim says `EQ(v, v)` produces true for a
value of any tag, but executing EQ with the same (empty) array as both
operands pushes the boolean false. -/
theorem eq_reflexivity_cex :
    vmStep ⟨[21], []⟩ ⟨0, [.array [], .array []], [], [], []⟩ =
      .next ⟨1, [.boolean false], [], [], []⟩ := rfl

/-- C7 amended: executing EQ with the same value `v` as both operands
never raises a type error (it always falls through to the next
instruction pushing a boolean), and the pushed boolean is true exactly
when `v`'s tag is number, string, boolean, or null (tags 0..3); for
array, object, and function values it is false. -/
theorem eq_reflexivity_amended (v : RuntimeValue) (vs g : List RuntimeValue)
    (out er : List String) (hcap : vs.length < stackCapacity) :
    vmStep ⟨[21], []⟩ ⟨0, v :: v :: vs, g, out, er⟩ =
      .next ⟨1, .boolean (decide (runtimeTag v ≤ 3)) :: vs, g, out, er⟩ := by
  cases v <;>
    simp [vmStep, codeByte, vm_pop, vm_push, comparisonResult, runtimeTag,
      Nat.not_le.mpr hcap]

theorem eq_reflexivity_amended_witness :
    ([] : List RuntimeValue).length < stackCapacity ∧
    (vmStep ⟨[21], []⟩ ⟨0, [.function, .function], [], [], []⟩ =
        .next ⟨1, [.boolean false], [], [], []⟩) ∧
    (vmStep ⟨[21], []⟩ ⟨0, [.string "a", .string "a"], [], [], []⟩ =
        .next ⟨1, [.boolean true], [], [], []⟩) :=
  ⟨by decide,
    eq_reflexivity_amended .function [] [] [] [] (by decide),
    eq_reflexivity_amended (.string "a") [] [] [] [] (by decide)⟩

/-- C3 counterexample: the claim says a stack underflow or overflow makes
the VM terminate the run with a non-zero status at the faulting
instruction, but (a) a program that pops an empty stack writes the
underflow diagnostic, keeps executing, and returns status 0, and (b) a
program that pushes 257 constants writes the overflow diagnostic, keeps
executing (the 257th value silently dropped, final depth 256), and
returns status 0. -/
theorem stack_fault_nonfatal_cex :
    (vm_run 3 ⟨[2, 1], []⟩ (freshVMState initGlobals) =
      .done 0 ⟨1, [], initGlobals, [], ["VM Error: Stack underflow.\n"]⟩) ∧
    ((vm_run 300 ⟨(List.replicate 257 [5, 0]).flatten ++ [1], [.number 0]⟩
        (freshVMState initGlobals)).state.errs = ["VM Error: Stack overflow.\n"]) ∧
    ((vm_run 300 ⟨(List.replicate 257 [5, 0]).flatten ++ [1], [.number 0]⟩
        (freshVMState initGlobals)).state.stack.length = 256) ∧
    (∃ st, vm_run 300 ⟨(List.replicate 257 [5, 0]).flatten ++ [1], [.number 0]⟩
        (freshVMState initGlobals) = .done 0 st) := by
  refine ⟨rfl, rfl, rfl, ⟨_, rfl⟩⟩

/-- C3 amended: on overflow `vm_push` writes the diagnostic and drops the
pushed value, on underflow `vm_pop` writes the diagnostic and yields a
null value, and in both cases `vm_run` continues with the next
instruction rather than terminating — shown for an underflowing POP,
which steps to the following instruction instead of halting. -/
theorem stack_fault_amended (st : VMState) (v : RuntimeValue) (ch : BytecodeChunk) :
    (stackCapacity ≤ st.stack.length →
      vm_push st v = { st with errs := st.errs ++ ["VM Error: Stack overflow.\n"] }) ∧
    (st.stack = [] →
      vm_pop st = (.null, { st with errs := st.errs ++ ["VM Error: Stack underflow.\n"] })) ∧
    (st.stack = [] → codeByte ch st.ip = some 2 →
      vmStep ch st =
        .next { st with ip := st.ip + 1,
                        errs := st.errs ++ ["VM Error: Stack underflow.\n"] }) := by
  refine ⟨fun h => ?_, fun h => ?_, fun h hc => ?_⟩
  · simp [vm_push, h]
  · simp [vm_pop, h]
  · simp [vmStep, hc, vm_pop, h]

theorem stack_fault_amended_witness :
    (vm_push ⟨0, List.replicate 256 .null, [], [], []⟩ .null =
      ⟨0, List.replicate 256 .null, [], [], ["VM Error: Stack overflow.\n"]⟩) ∧
    (vm_pop ⟨0, [], [], [], []⟩ = (.null, ⟨0, [], [], [], ["VM Error: Stack underflow.\n"]⟩)) ∧
    (vmStep ⟨[2], []⟩ ⟨0, [], [], [], []⟩ =
      .next ⟨1, [], [], [], ["VM Error: Stack underflow.\n"]⟩) :=
  ⟨(stack_fault_amended ⟨0, List.replicate 256 .null, [], [], []⟩ .null ⟨[2], []⟩).1
      (by simp [stackCapacity, List.length_replicate]),
    (stack_fault_amended ⟨0, [], [], [], []⟩ .null ⟨[2], []⟩).2.1 rfl,
    (stack_fault_amended ⟨0, [], [], [], []⟩ .null ⟨[2], []⟩).2.2 rfl rfl⟩

/-- C2 counterexample: the claim says `print(1 < "x");` exits non-zero
with a diagnostic about the numeric-only operator; in fact the compiled
program runs to EOF with status 0, printing `false` (the only diagnostic
is the statement-level POP underflowing, which names no operator). -/
theorem ordering_type_error_cex :
    (compile_ast (.block [.function_call "print"
        [.binary_op "<" (.literal .number "1") (.literal .string "x")]])
      emptyChunk emptySymtab).1 = ⟨[5, 0, 5, 1, 23, 40, 2, 1], [.number 1, .string "x"]⟩ ∧
    vm_run 20 ⟨[5, 0, 5, 1, 23, 40, 2, 1], [.number 1, .string "x"]⟩
        (freshVMState initGlobals) =
      .done 0 ⟨7, [], initGlobals, ["false\n"], ["VM Error: Stack underflow.\n"]⟩ :=
  ⟨rfl, rfl⟩

/-- C2 amended: an ordering comparison (LT, GT, LTE, GTE) in which at
least one operand is not a number does not fail the run: it pushes the
boolean false, writes no diagnostic, and execution falls through to the
next instruction (so `print(1 < "x");` prints `false` and exits 0, as the
counterexample's run shows). -/
theorem ordering_non_number_amended (instr : ℕ)
    (hinstr : instr = 23 ∨ instr = 24 ∨ instr = 25 ∨ instr = 26)
    (a b : RuntimeValue) (hnn : runtimeTag a ≠ 0 ∨ runtimeTag b ≠ 0)
    (vs g : List RuntimeValue) (out er : List String)
    (hcap : vs.length < stackCapacity) :
    vmStep ⟨[instr], []⟩ ⟨0, b :: a :: vs, g, out, er⟩ =
      .next ⟨1, .boolean false :: vs, g, out, er⟩ := by
  have hstep := vmStep_comparison instr (Or.inr (Or.inr hinstr)) a b vs g out er hcap
  rw [hstep, comparisonResult_ordering_false instr hinstr a b hnn]

theorem ordering_non_number_amended_witness :
    ((23 : ℕ) = 23 ∨ (23 : ℕ) = 24 ∨ (23 : ℕ) = 25 ∨ (23 : ℕ) = 26) ∧
    (runtimeTag (.number 1) ≠ 0 ∨ runtimeTag (.string "x") ≠ 0) ∧
    ([] : List RuntimeValue).length < stackCapacity ∧
    vmStep ⟨[23], []⟩ ⟨0, [.string "x", .number 1], [], [], []⟩ =
      .next ⟨1, [.boolean false], [], [], []⟩ :=
  ⟨Or.inl rfl, Or.inr (by decide), by decide,
    ordering_non_number_amended 23 (Or.inl rfl) (.number 1) (.string "x")
      (Or.inr (by decide)) [] [] [] [] (by decide)⟩

/-- C1 counterexample: the claim says `print("n=" + 7);` writes exactly
`n=7\n` and that ADD's string coercion renders numbers `%g`-like; the
compiled program actually writes `n=7.00\n`, because the coercion goes
through `runtime_value_to_string`, which formats numbers with `%.2f`. -/
theorem string_concat_format_cex :
    (compile_ast (.block [.function_call "print"
        [.binary_op "+" (.literal .string "n=") (.literal .number "7")]])
      emptyChunk emptySymtab).1 = ⟨[5, 0, 5, 1, 12, 40, 2, 1], [.string "n=", .number 7]⟩ ∧
    vm_run 20 ⟨[5, 0, 5, 1, 12, 40, 2, 1], [.string "n=", .number 7]⟩
        (freshVMState initGlobals) =
      .done 0 ⟨7, [], initGlobals, ["n=7.00\n"], ["VM Error: Stack underflow.\n"]⟩ ∧
    "n=7.00\n" ≠ "n=7\n" :=
  ⟨rfl, rfl, by decide⟩

/-- C1 amended: running the compiled `print("n=" + 7);` writes exactly
`n=7.00\n` to standard output and exits with status 0; in general, when
ADD receives a string and a non-string operand the non-string operand is
rendered by `runtime_value_to_string` (numbers in fixed two-decimal
`%.2f` form, so `7` becomes `7.00`) and then concatenated on the side it
occupied. -/
theorem add_string_coercion_amended (s : String) (v : RuntimeValue)
    (hv : runtimeTag v ≠ 1) (vs g : List RuntimeValue) (out er : List String)
    (hcap : vs.length < stackCapacity) :
    (vmStep ⟨[12], []⟩ ⟨0, v :: .string s :: vs, g, out, er⟩ =
      .next ⟨1, .string (s ++ runtime_value_to_string v) :: vs, g, out, er⟩) ∧
    (vmStep ⟨[12], []⟩ ⟨0, .string s :: v :: vs, g, out, er⟩ =
      .next ⟨1, .string (runtime_value_to_string v ++ s) :: vs, g, out, er⟩) ∧
    runtime_value_to_string (.number 7) = "7.00" := by
  refine ⟨?_, ?_, rfl⟩ <;>
    cases v <;>
      simp_all [vmStep, codeByte, vm_pop, vm_push, runtimeTag, Nat.not_le.mpr hcap]

theorem add_string_coercion_amended_witness :
    runtimeTag (.number 7) ≠ 1 ∧
    ([] : List RuntimeValue).length < stackCapacity ∧
    (vmStep ⟨[12], []⟩ ⟨0, [.number 7, .string "n="], [], [], []⟩ =
      .next ⟨1, [.string "n=7.00"], [], [], []⟩) := by
  refine ⟨by decide, by decide, ?_⟩
  have h := (add_string_coercion_amended "n=" (.number 7) (by decide) [] [] [] []
    (by decide)).1
  simpa using h

/-- C8 counterexample: the claim says a value stored through STORE_VAR
while running one VM is not observable through LOAD_VAR in a second VM,
and that the slots are allocated per VM; in fact `g_globals` is a single
static array, so running `x = 42`-style bytecode in one VM and then a
`print(x)`-style chunk in a fresh VM prints `42`. -/
theorem globals_shared_across_vms_cex :
    ((process_run_two 16 ⟨[5, 0, 7, 0, 1], [.number 42]⟩ ⟨[6, 0, 40, 1], []⟩).1.state.globals
      = initGlobals.set 0 (.number 42)) ∧
    ((process_run_two 16 ⟨[5, 0, 7, 0, 1], [.number 42]⟩ ⟨[6, 0, 40, 1], []⟩).2.state.output
      = ["42\n"]) ∧
    (∃ st, (process_run_two 16 ⟨[5, 0, 7, 0, 1], [.number 42]⟩ ⟨[6, 0, 40, 1], []⟩).2
      = .done 0 st) :=
  ⟨rfl, rfl, ⟨_, rfl⟩⟩

/-- C8 amended: the global slot array is one process-wide static array
shared by every VM in the process: for any number `x`, storing `x` into
slot 0 while running a first VM makes a second VM's LOAD_VAR of slot 0
observe `x` (here printed by the second VM). -/
theorem globals_shared_across_vms_amended (x : ℚ) :
    ((process_run_two 16 ⟨[5, 0, 7, 0, 1], [.number x]⟩ ⟨[6, 0, 40, 1], []⟩).2).state.output
      = [fmt_g x ++ "\n"] := by
  simp [process_run_two, vm_run, vmStep, codeByte, vm_pop, vm_push, freshVMState,
    RunResult.state, initGlobals, List.replicate_succ, printLine, stackCapacity]

/-- C4 counterexample: the claim says every top-level statement leaves
the operand-stack depth unchanged when the run has no runtime error, and
names call statements in particular; but the compiled statement
`foo(1, 2);` runs to EOF with status 0, no diagnostic, and one value left
on the stack — the two arguments stay (CALL is a no-op) and the
statement's POP removes only one of them. -/
theorem stack_balance_cex :
    (compile_ast (.block [.function_call "foo" [.literal .number "1", .literal .number "2"]])
      emptyChunk emptySymtab).1 =
        ⟨[5, 0, 5, 1, 31, 0, 2, 2, 1], [.number 1, .number 2]⟩ ∧
    vm_run 20 ⟨[5, 0, 5, 1, 31, 0, 2, 2, 1], [.number 1, .number 2]⟩
        (freshVMState initGlobals) =
      .done 0 ⟨8, [.number 1], initGlobals, [], []⟩ :=
  ⟨rfl, rfl⟩

/-- Reading back exactly the byte atoms a writer emitted yields the
original byte list. -/
theorem read_bytes_roundtrip (bs : List ℕ) (rest : List FileAtom) :
    read_bytes bs.length (bs.map .byte ++ rest) = some (bs, rest) := by
  induction bs with
  | nil => rfl
  | cons b bs ih => simp [read_bytes, ih]

/-- Reading back a serialized constants pool of persistable constants
yields the original pool. -/
theorem read_constants_roundtrip (vs : List RuntimeValue) (rest : List FileAtom)
    (h : ∀ v ∈ vs, constantPersistable v) :
    read_constants vs.length ((vs.map serialize_constant).flatten ++ rest) =
      some (vs, rest) := by
  induction vs with
  | nil => rfl
  | cons v vs ih =>
    have hv := h v (by simp)
    have ih' := ih (fun w hw => h w (by simp [hw]))
    cases v with
    | number x => simp [serialize_constant, read_constants, read_i32, read_f64, ih']
    | boolean b => simp [serialize_constant, read_constants, read_i32, read_bool8, ih']
    | null => simp [serialize_constant, read_constants, read_i32, ih']
    | string s =>
      have hcb : cStringBytes s = s.data := by
        rw [cStringBytes, List.takeWhile_eq_self_iff]
        intro c hc
        simpa using (hv c hc).1
      have hlt : ¬ ((s.length : ℤ) < 0) := by omega
      have hbytes : read_bytes s.length
          ((s.data.map (fun c => FileAtom.byte c.toNat)) ++
            ((vs.map serialize_constant).flatten ++ rest)) =
          some (s.data.map Char.toNat, (vs.map serialize_constant).flatten ++ rest) := by
        have hb := read_bytes_roundtrip (s.data.map Char.toNat)
          ((vs.map serialize_constant).flatten ++ rest)
        simpa [List.map_map, Function.comp] using hb
      have hmk : (s.data.map Char.toNat).map Char.ofNat = s.data := by
        rw [List.map_map]
        have hid : ∀ c ∈ s.data, (Char.ofNat ∘ Char.toNat) c = id c :=
          fun c _ => Char.ofNat_toNat c
        rw [List.map_congr_left hid, List.map_id]
      simp [serialize_constant, read_constants, read_i32, hcb, hlt, Int.toNat_natCast,
        hbytes, hmk, ih']
    | array xs => exact absurd hv (by simp [constantPersistable])
    | object => exact absurd hv (by simp [constantPersistable])
    | function => exact absurd hv (by simp [constantPersistable])

/-- C5: for every chunk whose constants all have tag number, boolean,
null, or string (with genuine C-string payloads), writing the chunk to a
file and reading it back succeeds and yields a chunk whose code buffer is
identical and whose constants pool is equal value-by-value. -/
theorem chunk_file_roundtrip (ch : BytecodeChunk)
    (h : ∀ v ∈ ch.constants, constantPersistable v) :
    read_chunk (write_chunk ch) = some ch := by
  have hlt1 : ¬ ((ch.code.length : ℤ) < 0) := by omega
  have hlt2 : ¬ ((ch.constants.length : ℤ) < 0) := by omega
  have hbytes := read_bytes_roundtrip ch.code ((ch.constants.map serialize_constant).flatten)
  have hconsts : read_constants ch.constants.length
      ((ch.constants.map serialize_constant).flatten) = some (ch.constants, []) := by
    simpa using read_constants_roundtrip ch.constants [] h
  simp [write_chunk, read_chunk, read_i32, hlt1, hlt2, Int.toNat_natCast, hbytes, hconsts]

theorem chunk_file_roundtrip_witness :
    (∀ v ∈ [RuntimeValue.number 7, .string "hi", .boolean true, .null],
      constantPersistable v) ∧
    read_chunk (write_chunk ⟨[5, 0, 1], [.number 7, .string "hi", .boolean true, .null]⟩) =
      some ⟨[5, 0, 1], [.number 7, .string "hi", .boolean true, .null]⟩ := by
  have hp : ∀ v ∈ [RuntimeValue.number 7, .string "hi", .boolean true, .null],
      constantPersistable v := by
    intro v hv
    fin_cases hv <;> simp [constantPersistable]
  exact ⟨hp, chunk_file_roundtrip ⟨[5, 0, 1], [.number 7, .string "hi", .boolean true, .null]⟩ hp⟩

/-- The scanning loops take exactly the `takeWhile` prefix. -/
theorem take_while_chars_fst (p : Char → Bool) (l : List Char) :
    ∀ col, (take_while_chars p l col).1 = l.takeWhile p := by
  induction l with
  | nil => intro col; rfl
  | cons c rs ih =>
    intro col
    by_cases h : p c <;> simp [take_while_chars, List.takeWhile_cons, h, ih]

/-- C9 counterexample: the claim says a number lexeme contains at most
one decimal point and never two or more; lexing the source `1.2.3`
returns a single TOKEN_NUMBER whose lexeme `1.2.3` contains two dots. -/
theorem number_lexeme_cex :
    lexer_next_token (lexer_init "1.2.3") =
      (⟨.number, some "1.2.3", 1, 6⟩, ⟨[], 1, 6⟩) ∧
    "1.2.3".data.count '.' = 2 := by
  refine ⟨?_, by decide⟩
  simp [lexer_next_token, lexer_skip_whitespace_and_comments, lexer_init,
    skip_ws_chars, take_while_chars]

/-- C9 amended: every number token the lexer produces has a nonempty
lexeme that begins with a digit and consists solely of digits and `.`
characters — the scanner takes the maximal run of digits-or-dots, so the
lexeme may contain more than one dot. -/
theorem number_lexeme_amended (lx : Lexer) (t : Token) (lx2 : Lexer)
    (heq : lexer_next_token lx = (t, lx2)) (hty : t.type = TokenType.number) :
    ∃ c cs, t.value = some (String.mk (c :: cs)) ∧ c.isDigit = true ∧
      ∀ ch ∈ c :: cs, (ch.isDigit || ch == '.') = true := by
  unfold lexer_next_token at heq
  simp only [] at heq
  split at heq
  · -- end of input: EOF token
    cases heq
    simp at hty
  · rename_i lx1 c rs hrest
    by_cases h1 : c.isAlpha = true ∨ c = '_'
    · rw [if_pos h1] at heq
      cases heq
      split at hty <;> (try split at hty) <;> (try split at hty) <;> simp_all
    · rw [if_neg h1] at heq
      by_cases h2 : c.isDigit = true
      · rw [if_pos h2] at heq
        cases heq
        refine ⟨c, rs.takeWhile (fun ch => ch.isDigit || ch == '.'), ?_, h2, ?_⟩
        · simp [take_while_chars_fst, hrest, List.takeWhile_cons, h2]
        · intro ch hch
          rcases List.mem_cons.mp hch with rfl | hmem
          · simp [h2]
          · simpa using List.mem_takeWhile_imp hmem
      · rw [if_neg h2] at heq
        by_cases h3 : c = '"'
        · rw [if_pos h3] at heq
          split at heq <;> (cases heq; simp at hty)
        · rw [if_neg h3] at heq
          by_cases h4 : c = '=' ∨ c = '!' ∨ c = '<' ∨ c = '>' ∨ c = '&' ∨ c = '|'
          · rw [if_pos h4] at heq
            split at heq <;> (try split at heq) <;> (try split at heq) <;>
              (cases heq; simp at hty)
          · rw [if_neg h4] at heq
            split at heq <;> (try split at heq) <;> (cases heq; simp at hty)

theorem number_lexeme_amended_witness :
    (lexer_next_token (lexer_init "12.5") = (⟨.number, some "12.5", 1, 5⟩, ⟨[], 1, 5⟩)) ∧
    ((⟨TokenType.number, some "12.5", 1, 5⟩ : Token).type = TokenType.number) ∧
    (∃ c cs, (⟨TokenType.number, some "12.5", 1, 5⟩ : Token).value =
        some (String.mk (c :: cs)) ∧ c.isDigit = true ∧
      ∀ ch ∈ c :: cs, (ch.isDigit || ch == '.') = true) := by
  have hrun : lexer_next_token (lexer_init "12.5") =
      (⟨.number, some "12.5", 1, 5⟩, ⟨[], 1, 5⟩) := by
    simp [lexer_next_token, lexer_skip_whitespace_and_comments, lexer_init,
      skip_ws_chars, take_while_chars]
  exact ⟨hrun, rfl,
    number_lexeme_amended (lexer_init "12.5") ⟨.number, some "12.5", 1, 5⟩
      ⟨[], 1, 5⟩ hrun rfl⟩


/-- `codeByte` as an index lookup. -/
theorem codeByte_eq_getElem (ch : BytecodeChunk) (i : ℕ) : codeByte ch i = ch.code[i]? := by
  simp [codeByte, List.get?_eq_getElem?]

/-- Setting an element at an offset past an appended prefix. -/
theorem set_append_offset (A l2 : List ℕ) (k e : ℕ) :
    (A ++ l2).set (A.length + k) e = A ++ l2.set k e := by
  rw [List.set_append]
  simp

/-- Reading an element at an offset past an appended prefix. -/
theorem getElem_append_offset (A l2 : List ℕ) (k : ℕ) :
    (A ++ l2)[A.length + k]? = l2[k]? := by
  rw [List.getElem?_append_right (by omega)]
  congr 1
  omega

/-- `patch_jump` on a chunk holding a placeholder right after prefix `A`
overwrites the two `0xFF` bytes with the big-endian distance to the end
of the code (the length of what follows the operand). -/
theorem patch_jump_shape (A B : List ℕ) (K : List RuntimeValue) :
    patch_jump ⟨A ++ [28, 255, 255] ++ B, K⟩ (A.length + 1) =
      ⟨A ++ [28, B.length / 256 % 256, B.length % 256] ++ B, K⟩ := by
  simp only [patch_jump]
  have hd : (A ++ [28, 255, 255] ++ B).length - (A.length + 1) - 2 = B.length := by
    simp
    omega
  rw [hd]
  have hshape : A ++ [28, 255, 255] ++ B = A ++ ([28, 255, 255] ++ B) := by
    simp
  rw [hshape, set_append_offset]
  rw [show A.length + 1 + 1 = A.length + 2 from by omega, set_append_offset]
  simp [List.set]

/-- Executing the OP_LOOP of a compiled while loop: from the LOOP opcode
at the end of the loop the instruction pointer lands exactly on the start
of the condition code. -/
theorem vmStep_loop_back (ccode bcode P : List ℕ) (consts : List RuntimeValue)
    (suffix : List ℕ) (sstack sg : List RuntimeValue) (so se : List String) :
    vmStep ⟨(P ++ ccode ++
        [28, (bcode.length + 3) / 256, (bcode.length + 3) % 256] ++ bcode ++
        [30, (ccode.length + bcode.length + 6) / 256,
          (ccode.length + bcode.length + 6) % 256]) ++ suffix, consts⟩
      ⟨P.length + ccode.length + 3 + bcode.length, sstack, sg, so, se⟩ =
      .next ⟨P.length, sstack, sg, so, se⟩ := by
  set d1 := (bcode.length + 3) / 256 with hd1
  set d2 := (bcode.length + 3) % 256 with hd2
  set o1 := (ccode.length + bcode.length + 6) / 256 with ho1
  set o2 := (ccode.length + bcode.length + 6) % 256 with ho2
  have hF : (P ++ ccode ++ [28, d1, d2] ++ bcode ++ [30, o1, o2]) ++ suffix =
      (P ++ ccode ++ [28, d1, d2] ++ bcode) ++ ([30, o1, o2] ++ suffix) := by
    simp
  rw [hF]
  have hlenA : (P ++ ccode ++ [28, d1, d2] ++ bcode).length =
      P.length + ccode.length + 3 + bcode.length := by
    simp
    omega
  have hb0 : codeByte ⟨(P ++ ccode ++ [28, d1, d2] ++ bcode) ++ ([30, o1, o2] ++ suffix),
      consts⟩ (P.length + ccode.length + 3 + bcode.length) = some 30 := by
    rw [codeByte_eq_getElem]
    show ((P ++ ccode ++ [28, d1, d2] ++ bcode) ++
      ([30, o1, o2] ++ suffix))[P.length + ccode.length + 3 + bcode.length]? = some 30
    rw [show P.length + ccode.length + 3 + bcode.length =
      (P ++ ccode ++ [28, d1, d2] ++ bcode).length + 0 from by rw [hlenA]; omega]
    rw [getElem_append_offset]
    simp
  have hb1 : codeByte ⟨(P ++ ccode ++ [28, d1, d2] ++ bcode) ++ ([30, o1, o2] ++ suffix),
      consts⟩ (P.length + ccode.length + 3 + bcode.length + 1) = some o1 := by
    rw [codeByte_eq_getElem]
    show ((P ++ ccode ++ [28, d1, d2] ++ bcode) ++
      ([30, o1, o2] ++ suffix))[P.length + ccode.length + 3 + bcode.length + 1]? = some o1
    rw [show P.length + ccode.length + 3 + bcode.length + 1 =
      (P ++ ccode ++ [28, d1, d2] ++ bcode).length + 1 from by rw [hlenA]]
    rw [getElem_append_offset]
    simp
  have hb2 : codeByte ⟨(P ++ ccode ++ [28, d1, d2] ++ bcode) ++ ([30, o1, o2] ++ suffix),
      consts⟩ (P.length + ccode.length + 3 + bcode.length + 2) = some o2 := by
    rw [codeByte_eq_getElem]
    show ((P ++ ccode ++ [28, d1, d2] ++ bcode) ++
      ([30, o1, o2] ++ suffix))[P.length + ccode.length + 3 + bcode.length + 2]? = some o2
    rw [show P.length + ccode.length + 3 + bcode.length + 2 =
      (P ++ ccode ++ [28, d1, d2] ++ bcode).length + 2 from by rw [hlenA]]
    rw [getElem_append_offset]
    simp
  rw [vmStep]
  rw [hb0]
  simp only [hb1, hb2]
  rw [if_pos (by omega)]
  simp only [StepResult.next.injEq, VMState.mk.injEq, and_true, true_and]
  omega

/-- Executing the patched OP_JUMP_IF_FALSE of a compiled while loop on a
false condition: the instruction pointer lands exactly on the first byte
after the loop. -/
theorem vmStep_jif_exit (ccode bcode P : List ℕ) (consts : List RuntimeValue)
    (suffix : List ℕ) (v : RuntimeValue) (vs sg : List RuntimeValue)
    (so se : List String) (hcond : jump_if_false_cond v = true) :
    vmStep ⟨(P ++ ccode ++
        [28, (bcode.length + 3) / 256, (bcode.length + 3) % 256] ++ bcode ++
        [30, (ccode.length + bcode.length + 6) / 256,
          (ccode.length + bcode.length + 6) % 256]) ++ suffix, consts⟩
      ⟨P.length + ccode.length, v :: vs, sg, so, se⟩ =
      .next ⟨P.length + ccode.length + bcode.length + 6, vs, sg, so, se⟩ := by
  set d1 := (bcode.length + 3) / 256 with hd1
  set d2 := (bcode.length + 3) % 256 with hd2
  set o1 := (ccode.length + bcode.length + 6) / 256 with ho1
  set o2 := (ccode.length + bcode.length + 6) % 256 with ho2
  have hF : (P ++ ccode ++ [28, d1, d2] ++ bcode ++ [30, o1, o2]) ++ suffix =
      (P ++ ccode) ++ ([28, d1, d2] ++ (bcode ++ [30, o1, o2] ++ suffix)) := by
    simp
  rw [hF]
  have hlenA : (P ++ ccode).length = P.length + ccode.length := by simp
  have hb0 : codeByte ⟨(P ++ ccode) ++ ([28, d1, d2] ++ (bcode ++ [30, o1, o2] ++ suffix)),
      consts⟩ (P.length + ccode.length) = some 28 := by
    rw [codeByte_eq_getElem]
    show ((P ++ ccode) ++
      ([28, d1, d2] ++ (bcode ++ [30, o1, o2] ++ suffix)))[P.length + ccode.length]? = some 28
    rw [show P.length + ccode.length = (P ++ ccode).length + 0 from by rw [hlenA]; omega]
    rw [getElem_append_offset]
    simp
  have hb1 : codeByte ⟨(P ++ ccode) ++ ([28, d1, d2] ++ (bcode ++ [30, o1, o2] ++ suffix)),
      consts⟩ (P.length + ccode.length + 1) = some d1 := by
    rw [codeByte_eq_getElem]
    show ((P ++ ccode) ++
      ([28, d1, d2] ++ (bcode ++ [30, o1, o2] ++ suffix)))[P.length + ccode.length + 1]? = some d1
    rw [show P.length + ccode.length + 1 = (P ++ ccode).length + 1 from by rw [hlenA]]
    rw [getElem_append_offset]
    simp
  have hb2 : codeByte ⟨(P ++ ccode) ++ ([28, d1, d2] ++ (bcode ++ [30, o1, o2] ++ suffix)),
      consts⟩ (P.length + ccode.length + 2) = some d2 := by
    rw [codeByte_eq_getElem]
    show ((P ++ ccode) ++
      ([28, d1, d2] ++ (bcode ++ [30, o1, o2] ++ suffix)))[P.length + ccode.length + 2]? = some d2
    rw [show P.length + ccode.length + 2 = (P ++ ccode).length + 2 from by rw [hlenA]]
    rw [getElem_append_offset]
    simp
  rw [vmStep]
  rw [hb0]
  simp only [hb1, hb2, vm_pop, hcond, if_pos]
  simp only [StepResult.next.injEq, VMState.mk.injEq, and_true, true_and]
  omega

/-- C6: for every compiled while loop — with the condition compiling to
`ccode` and the body to `bcode`, and the distances fitting 16 bits — the
emitted code is the condition, a patched JUMP_IF_FALSE whose big-endian
operand is `bcode.length + 3`, the body, and a LOOP whose big-endian
operand is the backward distance `current_ip − loop_start + 2 =
ccode.length + bcode.length + 6`; executing that LOOP moves the
instruction pointer exactly to the recorded loop start (where the
condition is re-evaluated), and executing the patched JUMP_IF_FALSE on a
false condition moves it exactly to the first byte after the loop. -/
theorem while_loop_backpatch_exact (c b : ASTNode) (ch ch1 ch3 : BytecodeChunk)
    (t t1 t2 : SymbolTable) (ccode bcode : List ℕ)
    (h1 : compile_expression c ch t = (ch1, t1))
    (hc : ch1.code = ch.code ++ ccode)
    (h2 : compile_statement b (emit_jump ch1 28).2 t1 = (ch3, t2))
    (hb : ch3.code = (emit_jump ch1 28).2.code ++ bcode)
    (hfit : ccode.length + bcode.length + 6 < 65536) :
    (compile_statement (.while_loop c b) ch t).1.code =
      ch.code ++ ccode ++
        [28, (bcode.length + 3) / 256, (bcode.length + 3) % 256] ++ bcode ++
        [30, (ccode.length + bcode.length + 6) / 256,
          (ccode.length + bcode.length + 6) % 256] ∧
    (∀ (consts : List RuntimeValue) (suffix : List ℕ) (sstack sg : List RuntimeValue)
      (so se : List String),
      vmStep ⟨(compile_statement (.while_loop c b) ch t).1.code ++ suffix, consts⟩
        ⟨ch.code.length + ccode.length + 3 + bcode.length, sstack, sg, so, se⟩ =
        .next ⟨ch.code.length, sstack, sg, so, se⟩) ∧
    (∀ (consts : List RuntimeValue) (suffix : List ℕ) (v : RuntimeValue)
      (vs sg : List RuntimeValue) (so se : List String),
      jump_if_false_cond v = true →
      vmStep ⟨(compile_statement (.while_loop c b) ch t).1.code ++ suffix, consts⟩
        ⟨ch.code.length + ccode.length, v :: vs, sg, so, se⟩ =
        .next ⟨ch.code.length + ccode.length + bcode.length + 6, vs, sg, so, se⟩) := by
  have hlayout : (compile_statement (.while_loop c b) ch t).1.code =
      ch.code ++ ccode ++
        [28, (bcode.length + 3) / 256, (bcode.length + 3) % 256] ++ bcode ++
        [30, (ccode.length + bcode.length + 6) / 256,
          (ccode.length + bcode.length + 6) % 256] := by
    rw [compile_statement, h1]
    simp only [emit_jump, emit_byte, vm_chunk_write_byte] at h2 hb ⊢
    rw [h2]
    rw [hb, hc]
    have hX : (ch.code ++ ccode ++ [28] ++ [255] ++ [255] ++ bcode ++ [30]).length -
        ch.code.length + 2 = ccode.length + bcode.length + 6 := by
      simp
      omega
    rw [hX]
    have hP : (ch.code ++ ccode ++ [28] ++ [255] ++ [255]).length - 2 =
        (ch.code ++ ccode).length + 1 := by
      simp
      omega
    rw [hP]
    have hshape : ch.code ++ ccode ++ [28] ++ [255] ++ [255] ++ bcode ++ [30] ++
        [(ccode.length + bcode.length + 6) / 256 % 256] ++
        [(ccode.length + bcode.length + 6) % 256] =
        (ch.code ++ ccode) ++ [28, 255, 255] ++
          (bcode ++ [30, (ccode.length + bcode.length + 6) / 256 % 256,
            (ccode.length + bcode.length + 6) % 256]) := by
      simp
    rw [hshape, patch_jump_shape]
    have h1lt : (bcode.length + 3) / 256 < 256 := by omega
    have h2lt : (ccode.length + bcode.length + 6) / 256 < 256 := by omega
    simp [Nat.mod_eq_of_lt h1lt, Nat.mod_eq_of_lt h2lt, List.append_assoc]
  refine ⟨hlayout, ?_, ?_⟩
  · intro consts suffix sstack sg so se
    rw [hlayout]
    exact vmStep_loop_back ccode bcode ch.code consts suffix sstack sg so se
  · intro consts suffix v vs sg so se hcond
    rw [hlayout]
    exact vmStep_jif_exit ccode bcode ch.code consts suffix v vs sg so se hcond

theorem while_loop_backpatch_exact_witness :
    (compile_expression (.literal .boolean "true") emptyChunk emptySymtab =
      (⟨[5, 0], [.boolean true]⟩, ⟨[]⟩)) ∧
    ((⟨[5, 0], [.boolean true]⟩ : BytecodeChunk).code = emptyChunk.code ++ [5, 0]) ∧
    (compile_statement (.block []) (emit_jump ⟨[5, 0], [.boolean true]⟩ 28).2 ⟨[]⟩ =
      (⟨[5, 0, 28, 255, 255], [.boolean true]⟩, ⟨[]⟩)) ∧
    ((⟨[5, 0, 28, 255, 255], [.boolean true]⟩ : BytecodeChunk).code =
      (emit_jump ⟨[5, 0], [.boolean true]⟩ 28).2.code ++ []) ∧
    (([5, 0] : List ℕ).length + ([] : List ℕ).length + 6 < 65536) ∧
    ((compile_statement (.while_loop (.literal .boolean "true") (.block []))
        emptyChunk emptySymtab).1.code = [5, 0, 28, 0, 3, 30, 0, 8] ∧
      (∀ (consts : List RuntimeValue) (suffix : List ℕ) (sstack sg : List RuntimeValue)
        (so se : List String),
        vmStep ⟨(compile_statement (.while_loop (.literal .boolean "true") (.block []))
            emptyChunk emptySymtab).1.code ++ suffix, consts⟩ ⟨5, sstack, sg, so, se⟩ =
          .next ⟨0, sstack, sg, so, se⟩) ∧
      (∀ (consts : List RuntimeValue) (suffix : List ℕ) (v : RuntimeValue)
        (vs sg : List RuntimeValue) (so se : List String),
        jump_if_false_cond v = true →
        vmStep ⟨(compile_statement (.while_loop (.literal .boolean "true") (.block []))
            emptyChunk emptySymtab).1.code ++ suffix, consts⟩ ⟨2, v :: vs, sg, so, se⟩ =
          .next ⟨8, vs, sg, so, se⟩)) :=
  ⟨rfl, rfl, rfl, rfl, by decide,
    while_loop_backpatch_exact (.literal .boolean "true") (.block []) emptyChunk
      ⟨[5, 0], [.boolean true]⟩ ⟨[5, 0, 28, 255, 255], [.boolean true]⟩
      emptySymtab ⟨[]⟩ ⟨[]⟩ [5, 0] [] rfl rfl rfl rfl (by decide)⟩

/-- A `loadsFrom` block is two bytes per constant. -/
theorem loadsFrom_length : ∀ (k base : ℕ), (loadsFrom base k).length = 2 * k := by
  intro k
  induction k with
  | zero => intro base; rfl
  | succ k ih =>
    intro base
    simp [loadsFrom, ih (base + 1)]
    omega

theorem loadsFrom_getElem_even : ∀ (k base i : ℕ), i < k →
    (loadsFrom base k)[2 * i]? = some 5 := by
  intro k
  induction k with
  | zero => intro base i h; omega
  | succ k ih =>
    intro base i h
    cases i with
    | zero => rfl
    | succ i =>
      rw [show 2 * (i + 1) = 2 * i + 1 + 1 from by omega]
      simp only [loadsFrom, List.getElem?_cons_succ]
      exact ih (base + 1) i (by omega)

theorem loadsFrom_getElem_odd : ∀ (k base i : ℕ), i < k →
    (loadsFrom base k)[2 * i + 1]? = some ((base + i) % 256) := by
  intro k
  induction k with
  | zero => intro base i h; omega
  | succ k ih =>
    intro base i h
    cases i with
    | zero => simp [loadsFrom]
    | succ i =>
      rw [show 2 * (i + 1) + 1 = 2 * i + 1 + 1 + 1 from by omega]
      simp only [loadsFrom, List.getElem?_cons_succ]
      rw [ih (base + 1) i (by omega)]
      congr 2
      omega

theorem getElem_append_left_lt (A l2 : List ℕ) (n : ℕ) (h : n < A.length) :
    (A ++ l2)[n]? = A[n]? := by
  rw [List.getElem?_append]
  exact if_pos h

/-- Running a block of `LOAD_CONST 0 … LOAD_CONST k-1` pushes the whole
constant pool (top = last constant), stepping the ip across the block. -/
theorem vm_run_load_seq (vals : List RuntimeValue) (tail : List ℕ)
    (hk : vals.length ≤ 255) :
    ∀ (j i m : ℕ) (g : List RuntimeValue) (o e : List String),
    i + j = vals.length →
    vm_run (j + m) ⟨loadsFrom 0 vals.length ++ tail, vals⟩
        ⟨2 * i, (vals.take i).reverse, g, o, e⟩ =
      vm_run m ⟨loadsFrom 0 vals.length ++ tail, vals⟩
        ⟨2 * vals.length, vals.reverse, g, o, e⟩ := by
  intro j
  induction j with
  | zero =>
    intro i m g o e hij
    have hi : i = vals.length := by omega
    subst hi
    rw [List.take_length, Nat.zero_add]
  | succ j ih =>
    intro i m g o e hij
    have hik : i < vals.length := by omega
    have hb0 : codeByte ⟨loadsFrom 0 vals.length ++ tail, vals⟩ (2 * i) = some 5 := by
      rw [codeByte_eq_getElem]
      show (loadsFrom 0 vals.length ++ tail)[2 * i]? = some 5
      rw [getElem_append_left_lt _ _ _ (by rw [loadsFrom_length]; omega)]
      exact loadsFrom_getElem_even vals.length 0 i hik
    have hb1 : codeByte ⟨loadsFrom 0 vals.length ++ tail, vals⟩ (2 * i + 1) = some i := by
      rw [codeByte_eq_getElem]
      show (loadsFrom 0 vals.length ++ tail)[2 * i + 1]? = some i
      rw [getElem_append_left_lt _ _ _ (by rw [loadsFrom_length]; omega)]
      rw [loadsFrom_getElem_odd vals.length 0 i hik]
      congr 1
      omega
    have hci : vals.get? i = some vals[i] := by
      rw [List.get?_eq_getElem?]
      exact List.getElem?_eq_getElem hik
    have hstk : vals[i] :: (vals.take i).reverse = (vals.take (i + 1)).reverse := by
      have h1 : vals.take (i + 1) = vals.take i ++ [vals[i]] :=
        Eq.symm (List.take_concat_get' vals i hik)
      rw [h1, List.reverse_append]
      rfl
    have hlen : ¬ (stackCapacity ≤ (vals.take i).reverse.length) := by
      simp [stackCapacity]
      omega
    rw [show j + 1 + m = (j + m) + 1 from by omega]
    rw [vm_run]
    rw [vmStep]
    rw [hb0]
    simp only [hb1, hci, vm_push, hlen, if_false]
    rw [show (2 * i + 2 : ℕ) = 2 * (i + 1) from by omega]
    rw [hstk]
    exact ih (i + 1) m g o e (by omega)

/-- After the argument loads, the compiled call statement executes CALL
(a no-op that skips its two operand bytes), the statement-level POP
(removing one of the k pushed arguments), and EOF, returning status 0. -/
theorem vm_run_call_tail (vals g : List RuntimeValue) (o e : List String)
    (h1 : 1 ≤ vals.length) :
    vm_run 3 ⟨loadsFrom 0 vals.length ++ [31, 0, vals.length % 256, 2, 1], vals⟩
        ⟨2 * vals.length, vals.reverse, g, o, e⟩ =
      .done 0 ⟨2 * vals.length + 4, vals.reverse.tail, g, o, e⟩ := by
  have run_next : ∀ (fuel : ℕ) (ch : BytecodeChunk) (st st' : VMState),
      vmStep ch st = .next st' → vm_run (fuel + 1) ch st = vm_run fuel ch st' := by
    intro fuel ch st st' h
    rw [vm_run, h]
  have run_halt : ∀ (fuel : ℕ) (ch : BytecodeChunk) (st : VMState) (s : ℕ)
      (st' : VMState),
      vmStep ch st = .halt s st' → vm_run (fuel + 1) ch st = .done s st' := by
    intro fuel ch st s st' h
    rw [vm_run, h]
  have hA : (loadsFrom 0 vals.length).length = 2 * vals.length :=
    loadsFrom_length vals.length 0
  have hb0 : codeByte ⟨loadsFrom 0 vals.length ++ [31, 0, vals.length % 256, 2, 1], vals⟩
      (2 * vals.length) = some 31 := by
    rw [codeByte_eq_getElem]
    show (loadsFrom 0 vals.length ++ [31, 0, vals.length % 256, 2, 1])[2 * vals.length]? =
      some 31
    rw [show 2 * vals.length = (loadsFrom 0 vals.length).length + 0 from by rw [hA]; omega]
    rw [getElem_append_offset]
    rfl
  have hb1 : codeByte ⟨loadsFrom 0 vals.length ++ [31, 0, vals.length % 256, 2, 1], vals⟩
      (2 * vals.length + 1) = some 0 := by
    rw [codeByte_eq_getElem]
    show (loadsFrom 0 vals.length ++ [31, 0, vals.length % 256, 2, 1])[2 * vals.length + 1]? =
      some 0
    rw [show 2 * vals.length + 1 = (loadsFrom 0 vals.length).length + 1 from by rw [hA]]
    rw [getElem_append_offset]
    rfl
  have hb2 : codeByte ⟨loadsFrom 0 vals.length ++ [31, 0, vals.length % 256, 2, 1], vals⟩
      (2 * vals.length + 2) = some (vals.length % 256) := by
    rw [codeByte_eq_getElem]
    show (loadsFrom 0 vals.length ++ [31, 0, vals.length % 256, 2, 1])[2 * vals.length + 2]? =
      some (vals.length % 256)
    rw [show 2 * vals.length + 2 = (loadsFrom 0 vals.length).length + 2 from by rw [hA]]
    rw [getElem_append_offset]
    rfl
  have hb3 : codeByte ⟨loadsFrom 0 vals.length ++ [31, 0, vals.length % 256, 2, 1], vals⟩
      (2 * vals.length + 3) = some 2 := by
    rw [codeByte_eq_getElem]
    show (loadsFrom 0 vals.length ++ [31, 0, vals.length % 256, 2, 1])[2 * vals.length + 3]? =
      some 2
    rw [show 2 * vals.length + 3 = (loadsFrom 0 vals.length).length + 3 from by rw [hA]]
    rw [getElem_append_offset]
    rfl
  have hb4 : codeByte ⟨loadsFrom 0 vals.length ++ [31, 0, vals.length % 256, 2, 1], vals⟩
      (2 * vals.length + 4) = some 1 := by
    rw [codeByte_eq_getElem]
    show (loadsFrom 0 vals.length ++ [31, 0, vals.length % 256, 2, 1])[2 * vals.length + 4]? =
      some 1
    rw [show 2 * vals.length + 4 = (loadsFrom 0 vals.length).length + 4 from by rw [hA]]
    rw [getElem_append_offset]
    rfl
  obtain ⟨v, rest, hrev⟩ : ∃ v rest, vals.reverse = v :: rest := by
    cases hr : vals.reverse with
    | nil =>
      exfalso
      have h2 : vals.length = 0 := by
        rw [← List.length_reverse vals, hr]
        rfl
      omega
    | cons v rest => exact ⟨v, rest, rfl⟩
  rw [hrev]
  have s0 : vmStep ⟨loadsFrom 0 vals.length ++ [31, 0, vals.length % 256, 2, 1], vals⟩
      ⟨2 * vals.length, v :: rest, g, o, e⟩ =
      .next ⟨2 * vals.length + 3, v :: rest, g, o, e⟩ := by
    rw [vmStep, hb0]
    simp only [hb1, hb2]
  have s1 : vmStep ⟨loadsFrom 0 vals.length ++ [31, 0, vals.length % 256, 2, 1], vals⟩
      ⟨2 * vals.length + 3, v :: rest, g, o, e⟩ =
      .next ⟨2 * vals.length + 4, rest, g, o, e⟩ := by
    rw [vmStep, hb3]
    simp only [vm_pop]
  have s2 : vmStep ⟨loadsFrom 0 vals.length ++ [31, 0, vals.length % 256, 2, 1], vals⟩
      ⟨2 * vals.length + 4, rest, g, o, e⟩ =
      .halt 0 ⟨2 * vals.length + 4, rest, g, o, e⟩ := by
    rw [vmStep, hb4]
  exact (run_next 2 _ _ _ s0).trans ((run_next 1 _ _ _ s1).trans
    (run_halt 0 _ _ _ _ s2))

/-- The complete run of a compiled k-argument call statement: status 0,
no output, no diagnostics, and all but one pushed argument left behind. -/
theorem vm_run_call_full (vals g : List RuntimeValue) (h1 : 1 ≤ vals.length)
    (hk : vals.length ≤ 255) :
    vm_run (vals.length + 3)
        ⟨loadsFrom 0 vals.length ++ [31, 0, vals.length % 256, 2, 1], vals⟩
        (freshVMState g) =
      .done 0 ⟨2 * vals.length + 4, vals.reverse.tail, g, [], []⟩ := by
  have h := vm_run_load_seq vals [31, 0, vals.length % 256, 2, 1] hk vals.length 0 3
    g [] [] (by omega)
  calc vm_run (vals.length + 3)
        ⟨loadsFrom 0 vals.length ++ [31, 0, vals.length % 256, 2, 1], vals⟩
        (freshVMState g)
      = vm_run 3 ⟨loadsFrom 0 vals.length ++ [31, 0, vals.length % 256, 2, 1], vals⟩
        ⟨2 * vals.length, vals.reverse, g, [], []⟩ := h
    _ = .done 0 ⟨2 * vals.length + 4, vals.reverse.tail, g, [], []⟩ :=
        vm_run_call_tail vals g [] [] h1

theorem compile_expression_literal (tt : TokenType) (v : String) (ch : BytecodeChunk)
    (t : SymbolTable) :
    compile_expression (.literal tt v) ch t = (emit_constant ch (literalConstant tt v), t) :=
  rfl

theorem compile_args_cons_eq (a : ASTNode) (rest : List ASTNode) (ch : BytecodeChunk)
    (t : SymbolTable) :
    compile_args (a :: rest) ch t =
      (match compile_expression a ch t with
       | (ch1, t1) => compile_args rest ch1 t1) :=
  rfl

theorem compile_args_nil_eq (ch : BytecodeChunk) (t : SymbolTable) :
    compile_args [] ch t = (ch, t) :=
  rfl

theorem compile_expression_call_foo (args : List ASTNode) (ch : BytecodeChunk)
    (t : SymbolTable) :
    compile_expression (.function_call "foo" args) ch t =
      (match compile_args args ch t with
       | (ch1, t1) =>
         match symbol_table_get_or_add t1 "foo" true with
         | (funcIndex, t2) =>
           (emit_byte (emit_byte (emit_byte ch1 31) (funcIndex % 256))
             (args.length % 256), t2)) :=
  rfl

theorem compile_statement_block_eq (stmts : List ASTNode) (ch : BytecodeChunk)
    (t : SymbolTable) :
    compile_statement (.block stmts) ch t = compile_stmts stmts ch t :=
  rfl

theorem compile_stmts_cons_eq (a : ASTNode) (rest : List ASTNode) (ch : BytecodeChunk)
    (t : SymbolTable) :
    compile_stmts (a :: rest) ch t =
      (match compile_statement a ch t with
       | (ch1, t1) => compile_stmts rest ch1 t1) :=
  rfl

theorem compile_stmts_nil_eq (ch : BytecodeChunk) (t : SymbolTable) :
    compile_stmts [] ch t = (ch, t) :=
  rfl

theorem compile_statement_call_eq (n : String) (args : List ASTNode) (ch : BytecodeChunk)
    (t : SymbolTable) :
    compile_statement (.function_call n args) ch t =
      (match compile_expression (.function_call n args) ch t with
       | (ch1, t1) => (emit_byte ch1 2, t1)) :=
  rfl

/-- The argument loop on `k` numeric literals emits exactly the
`loadsFrom` block and appends the `k` numbers to the constant pool. -/
theorem compile_args_number_literals :
    ∀ (args : List String) (ch : BytecodeChunk) (t : SymbolTable),
    compile_args (args.map (fun s => ASTNode.literal TokenType.number s)) ch t =
      (⟨ch.code ++ loadsFrom ch.constants.length args.length,
        ch.constants ++ args.map (fun s => RuntimeValue.number (atofQ s))⟩, t) := by
  intro args
  induction args with
  | nil =>
    intro ch t
    rw [List.map_nil, compile_args_nil_eq]
    simp [loadsFrom]
  | cons s rest ih =>
    intro ch t
    rw [List.map_cons, compile_args_cons_eq, compile_expression_literal]
    simp only [literalConstant, emit_constant, vm_chunk_add_constant, emit_byte,
      vm_chunk_write_byte]
    rw [ih]
    simp [loadsFrom, List.append_assoc]

/-- `foo(a1, …, ak);` as a lone statement compiles to the `k` loads,
`CALL funcIndex argCount`, the expression-statement `POP`, and `EOF`. -/
theorem compile_call_number_literals (f_args : List String) :
    compile_ast
        (.block [.function_call "foo"
          (f_args.map (fun s => ASTNode.literal TokenType.number s))])
        emptyChunk emptySymtab =
      (⟨loadsFrom 0 f_args.length ++ [31, 0, f_args.length % 256, 2, 1],
        f_args.map (fun s => RuntimeValue.number (atofQ s))⟩,
       ⟨[⟨"foo", 0, true⟩]⟩) := by
  have h1 := compile_args_number_literals f_args emptyChunk emptySymtab
  simp only [compile_ast, compile_node]
  rw [compile_statement_block_eq, compile_stmts_cons_eq, compile_statement_call_eq,
    compile_expression_call_foo, h1]
  simp only [symbol_table_get_or_add, emptySymtab, List.find?, emit_byte,
    vm_chunk_write_byte]
  rw [compile_stmts_nil_eq]
  simp [emptyChunk, List.append_assoc]

/-- C4 amended: a bare expression statement compiles to its expression
followed by one OP_POP, and statement-level stack balance fails for the
statement forms the claim covers.  A user-function call statement with k
numeric-literal arguments (1 ≤ k ≤ 255) compiles to k loads, the no-op
CALL and a single POP, and its run ends with status 0, no diagnostics,
and k−1 values still on the stack; an assignment statement's POP
underflows (STORE_VAR pops without re-pushing), writing the underflow
diagnostic while the run still ends with status 0 and depth 0 only
because the underflow clamps at the empty stack; and a builtin
`print(e);` statement underflows the same way, because OP_PRINT already
consumes its operand before the statement's POP executes. -/
theorem stack_effect_amended (f_args : List String) (z w : String)
    (hk1 : 1 ≤ f_args.length) (hk2 : f_args.length ≤ 255) :
    (compile_ast
        (.block [.function_call "foo"
          (f_args.map (fun s => ASTNode.literal TokenType.number s))])
        emptyChunk emptySymtab =
      (⟨loadsFrom 0 f_args.length ++ [31, 0, f_args.length % 256, 2, 1],
        f_args.map (fun s => RuntimeValue.number (atofQ s))⟩,
       ⟨[⟨"foo", 0, true⟩]⟩)) ∧
    (vm_run (f_args.length + 3)
        ⟨loadsFrom 0 f_args.length ++ [31, 0, f_args.length % 256, 2, 1],
          f_args.map (fun s => RuntimeValue.number (atofQ s))⟩
        (freshVMState initGlobals) =
      .done 0 ⟨2 * f_args.length + 4,
        ((f_args.map (fun s => RuntimeValue.number (atofQ s))).reverse).tail,
        initGlobals, [], []⟩) ∧
    (((f_args.map (fun s => RuntimeValue.number (atofQ s))).reverse).tail.length =
      f_args.length - 1) ∧
    (compile_ast (.block [.assignment "x" (.literal .number z)]) emptyChunk emptySymtab =
      (⟨[5, 0, 7, 0, 2, 1], [.number (atofQ z)]⟩, ⟨[⟨"x", 0, false⟩]⟩)) ∧
    (vm_run 20 ⟨[5, 0, 7, 0, 2, 1], [.number (atofQ z)]⟩ (freshVMState initGlobals) =
      .done 0 ⟨5, [], initGlobals.set 0 (.number (atofQ z)), [],
        ["VM Error: Stack underflow.\n"]⟩) ∧
    (compile_ast (.block [.function_call "print" [.literal .number w]])
        emptyChunk emptySymtab =
      (⟨[5, 0, 40, 2, 1], [.number (atofQ w)]⟩, ⟨[]⟩)) ∧
    (vm_run 20 ⟨[5, 0, 40, 2, 1], [.number (atofQ w)]⟩ (freshVMState initGlobals) =
      .done 0 ⟨4, [], initGlobals, [fmt_g (atofQ w) ++ "\n"],
        ["VM Error: Stack underflow.\n"]⟩) := by
  have hlen : (f_args.map (fun s => RuntimeValue.number (atofQ s))).length =
      f_args.length := by simp
  refine ⟨compile_call_number_literals f_args, ?_, ?_, rfl, rfl, rfl, rfl⟩
  · have h := vm_run_call_full (f_args.map (fun s => RuntimeValue.number (atofQ s)))
      initGlobals (by rw [hlen]; exact hk1) (by rw [hlen]; exact hk2)
    rw [hlen] at h
    exact h
  · simp [List.length_tail]

theorem stack_effect_amended_witness :
    (1 ≤ (["1", "2", "3"] : List String).length) ∧
    ((["1", "2", "3"] : List String).length ≤ 255) ∧
    ((compile_ast
        (.block [.function_call "foo"
          ((["1", "2", "3"] : List String).map (fun s => ASTNode.literal TokenType.number s))])
        emptyChunk emptySymtab =
      (⟨loadsFrom 0 (["1", "2", "3"] : List String).length ++
          [31, 0, (["1", "2", "3"] : List String).length % 256, 2, 1],
        (["1", "2", "3"] : List String).map (fun s => RuntimeValue.number (atofQ s))⟩,
       ⟨[⟨"foo", 0, true⟩]⟩)) ∧
    (vm_run ((["1", "2", "3"] : List String).length + 3)
        ⟨loadsFrom 0 (["1", "2", "3"] : List String).length ++
            [31, 0, (["1", "2", "3"] : List String).length % 256, 2, 1],
          (["1", "2", "3"] : List String).map (fun s => RuntimeValue.number (atofQ s))⟩
        (freshVMState initGlobals) =
      .done 0 ⟨2 * (["1", "2", "3"] : List String).length + 4,
        (((["1", "2", "3"] : List String).map
          (fun s => RuntimeValue.number (atofQ s))).reverse).tail,
        initGlobals, [], []⟩) ∧
    ((((["1", "2", "3"] : List String).map
        (fun s => RuntimeValue.number (atofQ s))).reverse).tail.length =
      (["1", "2", "3"] : List String).length - 1) ∧
    (compile_ast (.block [.assignment "x" (.literal .number "4")]) emptyChunk emptySymtab =
      (⟨[5, 0, 7, 0, 2, 1], [.number (atofQ "4")]⟩, ⟨[⟨"x", 0, false⟩]⟩)) ∧
    (vm_run 20 ⟨[5, 0, 7, 0, 2, 1], [.number (atofQ "4")]⟩ (freshVMState initGlobals) =
      .done 0 ⟨5, [], initGlobals.set 0 (.number (atofQ "4")), [],
        ["VM Error: Stack underflow.\n"]⟩) ∧
    (compile_ast (.block [.function_call "print" [.literal .number "5"]])
        emptyChunk emptySymtab =
      (⟨[5, 0, 40, 2, 1], [.number (atofQ "5")]⟩, ⟨[]⟩)) ∧
    (vm_run 20 ⟨[5, 0, 40, 2, 1], [.number (atofQ "5")]⟩ (freshVMState initGlobals) =
      .done 0 ⟨4, [], initGlobals, [fmt_g (atofQ "5") ++ "\n"],
        ["VM Error: Stack underflow.\n"]⟩)) :=
  ⟨by decide, by decide,
    stack_effect_amended ["1", "2", "3"] "4" "5" (by decide) (by decide)⟩

end EmberScript
